import Mathlib

/-!
Verification development for the feedback-photo-bot repository
(Supabase Edge Function Telegram webhook plus SQL migrations).

The main embedding follows `supabase/functions/tg-webhook/index.ts` and the
stored procedure `append_submission_photo` from
`supabase/migrations/0003_bot_submissions_v2.sql`.  The earlier webhook
iterations are embedded only where a claim refers to them (namespace `W1`
mirrors the variant with the `__SKIP__` sport sentinel and the
`sendSubmissionAndFinalize` helper).

Stateful TypeScript code is embedded as explicit state passing over a `Db`
value that models the two Postgres tables (`bot_submissions` and
`tg_updates`); outbound Telegram traffic and store writes are recorded as an
action trace.  The network is modelled by an oracle giving each Telegram API
call of a delivery an outcome (success or an error text), mirroring the
`try`/`catch` placement in the source.
-/

namespace FeedbackBot

/-- One resolution variant of an inbound Telegram photo
(`{ file_id, file_unique_id?, file_size? }`). -/
structure PhotoSize where
  file_id : String
  file_unique_id : Option String
  file_size : Option Nat
deriving DecidableEq, Repr

/-- Inbound Telegram message.  A missing `photo` array is modelled as `[]`
(the source only tests `!message.photo || message.photo.length === 0`). -/
structure TgMessage where
  message_id : Nat
  chat_id : Int
  chat_type : String
  from_id : Option Int
  text : Option String
  photo : List PhotoSize
deriving DecidableEq, Repr

/-- Inbound Telegram update (`{ update_id, message? }`). -/
structure TgUpdate where
  update_id : Int
  message : Option TgMessage
deriving DecidableEq, Repr

/-- A row of `bot_submissions` as selected by the webhook.  The generated
uuid is modelled as a `Nat` issued from a counter; `created_at` is a logical
timestamp issued from the same monotone clock. -/
structure Submission where
  id : Nat
  user_id : Int
  chat_id : Int
  created_at : Nat
  kind : String
  event_date : Option String
  event_type : Option String
  custom_event_type : Option String
  sport : Option String
  gender : Option String
  stage : Option String
  phase : Option String
  achievement_text : Option String
  photo_file_ids : List String
  photo_unique_ids : List String
  status : String
  attempts : Nat
  last_error : Option String
deriving DecidableEq, Repr

/-- The relational store: the `bot_submissions` table, the `tg_updates`
dedup ledger, plus the uuid/clock source for freshly inserted rows. -/
structure Db where
  submissions : List Submission
  tg_updates : List Int
  nextId : Nat
  now : Nat
deriving DecidableEq, Repr

/-- The reply keyboards attached to outbound messages.  The four named
constants of the source are modelled by name; the per-question option
keyboards built inline are modelled by their option list. -/
inductive Keyboard where
  | START
  | PHOTO_ACTIONS
  | RETRY_ACTIONS
  | CONFIRM_ACTIONS
  | options (opts : List String)
deriving DecidableEq, Repr

/-- Destination of an outbound Telegram call: the private chat of a user, or
the fixed target group chat (`TG_TARGET_CHAT_ID`). -/
inductive ChatRef where
  | user (id : Int)
  | target
deriving DecidableEq, Repr

/-- An outbound Telegram call: `sendMessage` or `sendMediaGroup`. -/
inductive Outbound where
  | message (chat : ChatRef) (text : String) (kb : Option Keyboard)
  | mediaGroup (chat : ChatRef) (files : List String)
deriving DecidableEq, Repr

/-- One observable step of a webhook invocation:
`mutate`  — a group of synchronous assignments to the in-memory submission;
`persist` — an `updateSubmission` store write;
`create`  — a `createSubmission` store insert;
`rpcAppend` — an `append_submission_photo` RPC with its result;
`send`    — an outbound Telegram call. -/
inductive Action where
  | mutate (s : Submission)
  | persist (s : Submission)
  | create (s : Submission)
  | rpcAppend (subId : Nat) (fileId uniqueId : String) (count : Nat) (added : Bool)
  | send (o : Outbound)
deriving DecidableEq, Repr

/-! ### Constants from the source -/

def TYPE_OPTIONS : List String := ["ШСЛ", "ПСИ", "ПС", "Фестиваль", "Свой вариант"]

def DISCIPLINE_OPTIONS : List String :=
  ["Волейбол", "Баскетбол", "Футбол", "Футзал", "Шашки", "Шахматы", "Пропустить"]

def GENDER_OPTIONS : List String := ["Девочки", "Мальчики"]

def STAGE_OPTIONS : List String := ["Межрайон", "Москва"]

def PHASE_OPTIONS : List String := ["Группы", "Плейофф"]

def MAX_ACHIEVEMENT_TEXT_LENGTH : Nat := 700

/-! ### Pure helpers -/

/-- JavaScript `String.prototype.trim`: strip whitespace from both ends.
Implemented structurally over the character list so that it evaluates inside
the kernel (`String.trim` of core Lean is extensionally the same on the
inputs used here but is defined by well-founded recursion on byte
positions). -/
def jsTrim (s : String) : String :=
  ⟨((s.data.dropWhile Char.isWhitespace).reverse.dropWhile Char.isWhitespace).reverse⟩

/-- JavaScript truthiness test for an optional string: `!text` is true for a
missing text and for the empty string. -/
def textFalsy : Option String → Bool
  | none => true
  | some t => t = ""

/-- The regex test `/^\d{2}\.\d{2}\.\d{2,4}$/` of `isValidDate`, on the
character list: two digits, a dot, two digits, a dot, then two to four
digits (anchored on both ends). -/
def dateShape : List Char → Bool
  | d1 :: d2 :: c3 :: m1 :: m2 :: c6 :: rest =>
      d1.isDigit && d2.isDigit && (c3 = '.') && m1.isDigit && m2.isDigit && (c6 = '.') &&
      decide (2 ≤ rest.length) && decide (rest.length ≤ 4) && rest.all Char.isDigit
  | _ => false

/-- `isValidDate(text)`: the regex applied to `text.trim()`. -/
def isValidDate (text : String) : Bool :=
  dateShape (jsTrim text).data

/-- Loop body of `chunkArray`: each iteration takes a slice of `size` items
and recurses on the rest.  The fuel argument (instantiated with the length
of the list, an upper bound on the iteration count for `size ≥ 1`) makes the
recursion structural, so that the function evaluates inside the kernel;
`chunkGo_fuel` and `chunkArray_cons` below recover the natural recursion
equation. -/
def chunkGo (size : Nat) : Nat → List α → List (List α)
  | _, [] => []
  | 0, _ :: _ => []
  | fuel + 1, x :: xs => (x :: xs).take size :: chunkGo size fuel ((x :: xs).drop size)

/-- `chunkArray(items, size)`: slices of `size` consecutive items, in order.
The source loop (`for (let i = 0; i < items.length; i += size)`) never
terminates for `size = 0`; the only call site uses `size = 10`, and the
model returns `[]` in the degenerate `size = 0` case to stay total. -/
def chunkArray (items : List α) (size : Nat) : List (List α) :=
  match size with
  | 0 => []
  | s + 1 => chunkGo (s + 1) items.length items

/-- `photo.file_size ?? 0`. -/
def photoSize (p : PhotoSize) : Nat := p.file_size.getD 0

/-- The ascending-size comparator of
`[...photos].sort((a, b) => (a.file_size ?? 0) - (b.file_size ?? 0))`. -/
def sizeLe (a b : PhotoSize) : Bool := photoSize a ≤ photoSize b

/-- `pickLargestPhoto(photos)`: `null` on an empty list, otherwise the last
element of the stable ascending sort by reported byte size.  JavaScript
`Array.prototype.sort` is stable; it is modelled by `List.mergeSort`, which
is also stable. -/
def pickLargestPhoto (photos : List PhotoSize) : Option PhotoSize :=
  if photos = [] then none
  else (photos.mergeSort sizeLe).getLast?

/-- `getPhotoDedupKey(photo)`: `file_unique_id ?? file_id`. -/
def getPhotoDedupKey (p : PhotoSize) : String :=
  p.file_unique_id.getD p.file_id

/-- `getSubmissionStep(submission)`: the dialogue step derived from which
answer fields are populated (a missing string field and, for JavaScript
falsiness, an empty one both count as unanswered). -/
def optFalsy : Option String → Bool
  | none => true
  | some t => t = ""

def getSubmissionStep (s : Submission) : String :=
  if s.kind = "achievement" then
    if optFalsy s.achievement_text then "await_achievement_text" else "await_photos"
  else
    if optFalsy s.event_date then "await_date"
    else if optFalsy s.event_type then "await_type"
    else if s.event_type = some "Свой вариант" && optFalsy s.custom_event_type then "await_custom_type"
    else if optFalsy s.sport then "await_sport"
    else if optFalsy s.gender then "await_gender"
    else if optFalsy s.stage then "await_stage"
    else if optFalsy s.phase then "await_phase"
    else "await_photos"

/-- `buildSubmissionHeader(submission)` of the current webhook
(`tg-webhook/index.ts`): achievement label plus text, or the bracketed
fixed-order field block (a line is emitted for every field, empty when the
field is unset). -/
def buildSubmissionHeader (s : Submission) : String :=
  if s.kind = "achievement" then
    String.intercalate "\n" ["🌟 Достижения детей", s.achievement_text.getD "", ""]
  else
    let eventType :=
      if s.event_type = some "Свой вариант" then s.custom_event_type.getD ""
      else s.event_type.getD ""
    String.intercalate "\n"
      ["[", s.event_date.getD "", eventType, s.sport.getD "", s.gender.getD "",
       s.stage.getD "", s.phase.getD "", "]", ""]

/-! ### The stored procedure `append_submission_photo`
(migration `0003_bot_submissions_v2.sql`) -/

/-- Result row of `append_submission_photo` together with the updated
array columns. -/
structure AppendResult where
  files : List String
  uniques : List String
  photo_count : Nat
  added : Bool
deriving DecidableEq, Repr

/-- The row-level logic of the stored procedure: `photo_file_ids` gains
`p_file_id` unless already present, `photo_unique_ids` gains `p_unique_id`
unless already present, `photo_count` is the new length of
`photo_file_ids`, and `added` is `not (old_photo_file_ids ? p_file_id)`. -/
def append_submission_photo (files uniques : List String) (f u : String) : AppendResult :=
  let newFiles := if files.contains f then files else files ++ [f]
  let newUniques := if uniques.contains u then uniques else uniques ++ [u]
  { files := newFiles
    uniques := newUniques
    photo_count := newFiles.length
    added := !files.contains f }

/-! ### Store operations -/

/-- The statuses loaded by `getActiveSubmission`
(`.in("status", ["collecting", "confirming", "failed"])`). -/
def activeStatuses : List String := ["collecting", "confirming", "failed"]

/-- Accumulator step of the `order by created_at desc, limit 1` model. -/
def latestStep (acc : Option Submission) (s : Submission) : Option Submission :=
  match acc with
  | none => some s
  | some t => if t.created_at < s.created_at then some s else some t

/-- `order by created_at desc, limit 1`: the row with the largest
`created_at` (rows are created with strictly increasing timestamps). -/
def latestSubmission : List Submission → Option Submission :=
  List.foldl latestStep none

/-- `getActiveSubmission(userId)`. -/
def getActiveSubmission (db : Db) (userId : Int) : Option Submission :=
  latestSubmission (db.submissions.filter fun s =>
    s.user_id == userId && activeStatuses.contains s.status)

/-- The row inserted by `createSubmission`. -/
def newSubmission (db : Db) (userId chatId : Int) (kind : String) : Submission :=
  { id := db.nextId
    user_id := userId
    chat_id := chatId
    created_at := db.now
    kind := kind
    event_date := none
    event_type := none
    custom_event_type := none
    sport := none
    gender := none
    stage := none
    phase := none
    achievement_text := none
    photo_file_ids := []
    photo_unique_ids := []
    status := "collecting"
    attempts := 0
    last_error := none }

/-- `createSubmission(userId, chatId, kind)`: insert a fresh `collecting`
row and return it. -/
def createSubmission (db : Db) (userId chatId : Int) (kind : String) : Db × Submission :=
  let s := newSubmission db userId chatId kind
  ({ db with
      submissions := db.submissions ++ [s]
      nextId := db.nextId + 1
      now := db.now + 1 },
    s)

/-- The column list written by `updateSubmission` (everything mutable; `id`,
`user_id`, `chat_id`, `created_at` and `kind` are not written). -/
def applyUpdate (t s : Submission) : Submission :=
  { t with
      event_date := s.event_date
      event_type := s.event_type
      custom_event_type := s.custom_event_type
      sport := s.sport
      gender := s.gender
      stage := s.stage
      phase := s.phase
      achievement_text := s.achievement_text
      photo_file_ids := s.photo_file_ids
      photo_unique_ids := s.photo_unique_ids
      status := s.status
      attempts := s.attempts
      last_error := s.last_error }

/-- `updateSubmission(submission)`: update the row(s) with `.eq("id", …)`. -/
def updateSubmission (db : Db) (s : Submission) : Db :=
  { db with
      submissions := db.submissions.map fun t =>
        if t.id = s.id then applyUpdate t s else t }

/-- The stored procedure applied to the row with the given id, returning
`(photo_count, added)`; `none` models the `raise exception` for an unknown
submission id. -/
def appendSubmissionPhotoDb (db : Db) (subId : Nat) (f u : String) :
    Option (Db × Nat × Bool) :=
  match db.submissions.find? (fun s => s.id == subId) with
  | none => none
  | some s =>
    let r := append_submission_photo s.photo_file_ids s.photo_unique_ids f u
    some
      ({ db with
          submissions := db.submissions.map fun t =>
            if t.id = subId then
              { t with photo_file_ids := r.files, photo_unique_ids := r.uniques }
            else t },
        r.photo_count, r.added)

/-- `dedupeUpdate(updateId)`: insert into `tg_updates`; a duplicate key
(code 23505) reports `true`. -/
def dedupeUpdate (db : Db) (updateId : Int) : Db × Bool :=
  if db.tg_updates.contains updateId then (db, true)
  else ({ db with tg_updates := updateId :: db.tg_updates }, false)

/-! ### Delivery (`sendSubmissionToTarget`) -/

/-- The Telegram calls of one delivery: the header `sendMessage` followed by
one `sendMediaGroup` per chunk of 10 photos, in order. -/
def deliverCalls (s : Submission) : List Outbound :=
  .message .target (buildSubmissionHeader s) none ::
    (chunkArray s.photo_file_ids 10).map (fun b => .mediaGroup .target b)

/-- Network oracle: the outcome of the i-th Telegram call of a delivery
(`none` = success, `some e` = the call throws with error text `e`). -/
def Net : Type := Nat → Option String

/-- Run the delivery calls sequentially from call index `i`: each successful
call is recorded; the first failure aborts with its error text (the failing
call produces no outbound message). -/
def runDelivery (net : Net) : Nat → List Outbound → List Action × Option String
  | _, [] => ([], none)
  | i, c :: cs =>
    match net i with
    | some e => ([], some e)
    | none =>
      let (tr, r) := runDelivery net (i + 1) cs
      (.send c :: tr, r)

/-- `sendSubmissionToTarget(submission)`: header then chunked batches. -/
def sendSubmissionToTarget (net : Net) (s : Submission) : List Action × Option String :=
  runDelivery net 0 (deliverCalls s)

/-! ### Photo ingestion (`handleIncomingPhoto`) -/

structure PhotoOut where
  db : Db
  trace : List Action
  handled : Bool
  err : Option String
deriving DecidableEq, Repr

/-- `handleIncomingPhoto(submission, message, userId)`: pick the largest
resolution variant, derive the dedup key, call the append RPC.  Returns
`handled = false` when the message carries no photo; `err` models the
exception path of the RPC. -/
def handleIncomingPhoto (db : Db) (sub : Submission) (msg : TgMessage) : PhotoOut :=
  if msg.photo = [] then ⟨db, [], false, none⟩
  else
    match pickLargestPhoto msg.photo with
    | none => ⟨db, [], false, none⟩
    | some photo =>
      let key := getPhotoDedupKey photo
      match appendSubmissionPhotoDb db sub.id photo.file_id key with
      | none => ⟨db, [], false, some "Failed to append photo"⟩
      | some (db1, count, added) =>
        ⟨db1, [.rpcAppend sub.id photo.file_id key count added], true, none⟩

/-! ### The dialogue handler (`handleMessage` of `tg-webhook/index.ts`) -/

structure HandlerOut where
  db : Db
  trace : List Action
  err : Option String
deriving DecidableEq, Repr

def RECOMMENDED_PHOTOS : Nat := 25

def recommendPhotosText : String :=
  "Рекомендуем минимум " ++ toString RECOMMENDED_PHOTOS ++ " фото хорошего качества (можно меньше)"

def chooseScenarioText : String :=
  "Выберите сценарий на клавиатуре ниже, чтобы начать."

/-- The `await_achievement_text` step branch. -/
def stepAchievementText (db : Db) (userId : Int) (submission : Submission) (text : Option String) : HandlerOut :=
  match text with
  | none =>
    ⟨db, [.send (.message (.user userId) "Текст достижения не должен быть пустым. Попробуйте ещё раз:" none)], none⟩
  | some t =>
    if t = "" then
      ⟨db, [.send (.message (.user userId) "Текст достижения не должен быть пустым. Попробуйте ещё раз:" none)], none⟩
    else if t.length > MAX_ACHIEVEMENT_TEXT_LENGTH then
      ⟨db, [.send (.message (.user userId)
        ("Текст слишком длинный (" ++ toString t.length ++ " символов). Пожалуйста, сократите до " ++ toString MAX_ACHIEVEMENT_TEXT_LENGTH ++ " символов.") none)], none⟩
    else
      let s1 := { submission with achievement_text := some t }
      ⟨updateSubmission db s1,
       [.mutate s1, .persist s1,
        .send (.message (.user userId) recommendPhotosText (some .PHOTO_ACTIONS))], none⟩

/-- The `await_date` step branch: validate against `isValidDate`, persist the date on success, re-prompt otherwise. -/
def stepDate (db : Db) (userId : Int) (submission : Submission) (text : Option String) : HandlerOut :=
  match text with
  | none =>
    ⟨db, [.send (.message (.user userId) "Дата должна быть в формате дд.мм.гг или дд.мм.гггг. Попробуйте ещё раз:" none)], none⟩
  | some t =>
    if t = "" || !isValidDate t then
      ⟨db, [.send (.message (.user userId) "Дата должна быть в формате дд.мм.гг или дд.мм.гггг. Попробуйте ещё раз:" none)], none⟩
    else
      let s1 := { submission with event_date := some t }
      ⟨updateSubmission db s1,
       [.mutate s1, .persist s1,
        .send (.message (.user userId) "Выберите тип:" (some (.options TYPE_OPTIONS)))], none⟩

/-- The `await_type` step branch. -/
def stepType (db : Db) (userId : Int) (submission : Submission) (text : Option String) : HandlerOut :=
  match text with
  | none =>
    ⟨db, [.send (.message (.user userId) "Пожалуйста, выберите тип из списка кнопок." none)], none⟩
  | some t =>
    if t = "" || !TYPE_OPTIONS.contains t then
      ⟨db, [.send (.message (.user userId) "Пожалуйста, выберите тип из списка кнопок." none)], none⟩
    else if t = "Свой вариант" then
      let s1 := { submission with event_type := some t, custom_event_type := none }
      ⟨updateSubmission db s1,
       [.mutate s1, .persist s1,
        .send (.message (.user userId) "Введите свой вариант типа:" none)], none⟩
    else
      let s1 := { submission with event_type := some t, custom_event_type := none }
      ⟨updateSubmission db s1,
       [.mutate s1, .persist s1,
        .send (.message (.user userId) "Выберите дисциплину:" (some (.options DISCIPLINE_OPTIONS)))], none⟩

/-- The `await_custom_type` step branch. -/
def stepCustomType (db : Db) (userId : Int) (submission : Submission) (text : Option String) : HandlerOut :=
  match text with
  | none =>
    ⟨db, [.send (.message (.user userId) "Введите текст своего варианта:" none)], none⟩
  | some t =>
    if t = "" then
      ⟨db, [.send (.message (.user userId) "Введите текст своего варианта:" none)], none⟩
    else
      let s1 := { submission with custom_event_type := some t }
      ⟨updateSubmission db s1,
       [.mutate s1, .persist s1,
        .send (.message (.user userId) "Выберите дисциплину:" (some (.options DISCIPLINE_OPTIONS)))], none⟩

/-- The `await_sport` step branch (the skip choice is stored as `null`). -/
def stepSport (db : Db) (userId : Int) (submission : Submission) (text : Option String) : HandlerOut :=
  match text with
  | none =>
    ⟨db, [.send (.message (.user userId) "Пожалуйста, выберите дисциплину из списка кнопок." none)], none⟩
  | some t =>
    if t = "" || !DISCIPLINE_OPTIONS.contains t then
      ⟨db, [.send (.message (.user userId) "Пожалуйста, выберите дисциплину из списка кнопок." none)], none⟩
    else
      let s1 := { submission with sport := if t = "Пропустить" then none else some t }
      ⟨updateSubmission db s1,
       [.mutate s1, .persist s1,
        .send (.message (.user userId) "Выберите категорию:" (some (.options GENDER_OPTIONS)))], none⟩

/-- The `await_gender` step branch. -/
def stepGender (db : Db) (userId : Int) (submission : Submission) (text : Option String) : HandlerOut :=
  match text with
  | none =>
    ⟨db, [.send (.message (.user userId) "Пожалуйста, выберите из кнопок: Девочки или Мальчики." none)], none⟩
  | some t =>
    if t = "" || !GENDER_OPTIONS.contains t then
      ⟨db, [.send (.message (.user userId) "Пожалуйста, выберите из кнопок: Девочки или Мальчики." none)], none⟩
    else
      let s1 := { submission with gender := some t }
      ⟨updateSubmission db s1,
       [.mutate s1, .persist s1,
        .send (.message (.user userId) "Выберите этап:" (some (.options STAGE_OPTIONS)))], none⟩

/-- The `await_stage` step branch. -/
def stepStage (db : Db) (userId : Int) (submission : Submission) (text : Option String) : HandlerOut :=
  match text with
  | none =>
    ⟨db, [.send (.message (.user userId) "Пожалуйста, выберите этап из списка кнопок." none)], none⟩
  | some t =>
    if t = "" || !STAGE_OPTIONS.contains t then
      ⟨db, [.send (.message (.user userId) "Пожалуйста, выберите этап из списка кнопок." none)], none⟩
    else
      let s1 := { submission with stage := some t }
      ⟨updateSubmission db s1,
       [.mutate s1, .persist s1,
        .send (.message (.user userId) "Выберите стадию:" (some (.options PHASE_OPTIONS)))], none⟩

/-- The `await_phase` step branch. -/
def stepPhase (db : Db) (userId : Int) (submission : Submission) (text : Option String) : HandlerOut :=
  match text with
  | none =>
    ⟨db, [.send (.message (.user userId) "Пожалуйста, выберите стадию из списка кнопок." none)], none⟩
  | some t =>
    if t = "" || !PHASE_OPTIONS.contains t then
      ⟨db, [.send (.message (.user userId) "Пожалуйста, выберите стадию из списка кнопок." none)], none⟩
    else
      let s1 := { submission with phase := some t }
      ⟨updateSubmission db s1,
       [.mutate s1, .persist s1,
        .send (.message (.user userId) recommendPhotosText (some .PHOTO_ACTIONS))], none⟩

/-- The `await_photos` step branch: the done button moves to `confirming` when photos exist; an incoming photo is appended. -/
def stepPhotos (db : Db) (userId : Int) (submission : Submission) (msg : TgMessage) (text : Option String) : HandlerOut :=
  if text = some "Готово ✅" then
    if submission.photo_file_ids = [] then
      ⟨db, [.send (.message (.user userId) "Пока нет фото. Отправьте изображения и нажмите «Готово ✅»." (some .PHOTO_ACTIONS))], none⟩
    else
      let s1 := { submission with status := "confirming" }
      ⟨updateSubmission db s1,
       [.mutate s1, .persist s1,
        .send (.message (.user userId)
          ("Принято фото: " ++ toString submission.photo_file_ids.length ++ ". Что делаем?")
          (some .CONFIRM_ACTIONS))], none⟩
  else
    let ph := handleIncomingPhoto db submission msg
    if ph.err.isSome then ⟨ph.db, ph.trace, ph.err⟩
    else if ph.handled then ⟨ph.db, ph.trace, none⟩
    else
      ⟨db, [.send (.message (.user userId) "Ожидаю фото или кнопку «Готово ✅»." none)], none⟩

/-- The final fallthrough of the step dispatch. -/
def stepFallback (db : Db) (userId : Int) (submission : Submission) (msg : TgMessage) (text : Option String) : HandlerOut :=
  let ph := handleIncomingPhoto db submission msg
  if ph.err.isSome then ⟨ph.db, ph.trace, ph.err⟩
  else if ph.handled then ⟨ph.db, ph.trace, none⟩
  else
    ⟨db, [.send (.message (.user userId) chooseScenarioText (some .START))], none⟩

/-- The `collecting`-status step dispatch of `handleMessage`: dispatch on the
step derived from the populated fields. -/
def handleCollecting (db : Db) (userId : Int)
    (submission : Submission) (msg : TgMessage) (text : Option String) : HandlerOut :=
  let step := getSubmissionStep submission
  if step = "await_achievement_text" then stepAchievementText db userId submission text
  else if step = "await_date" then stepDate db userId submission text
  else if step = "await_type" then stepType db userId submission text
  else if step = "await_custom_type" then stepCustomType db userId submission text
  else if step = "await_sport" then stepSport db userId submission text
  else if step = "await_gender" then stepGender db userId submission text
  else if step = "await_stage" then stepStage db userId submission text
  else if step = "await_phase" then stepPhase db userId submission text
  else if step = "await_photos" then stepPhotos db userId submission msg text
  else stepFallback db userId submission msg text


/-- The per-status dispatch of `handleMessage` once an active submission was
loaded: the `failed` retry/photo branch, the `confirming` branch, the
catch-all for other statuses, and the `collecting` step dispatch. -/
def handleActive (net : Net) (db : Db) (userId : Int)
    (submission : Submission) (msg : TgMessage) (text : Option String) : HandlerOut :=
  if submission.status = "failed" then
    if text = some "Повторить отправку" then
      if submission.photo_file_ids = [] then
        let s1 := { submission with status := "collecting" }
        ⟨updateSubmission db s1,
         [.send (.message (.user userId) "Не вижу фото для отправки. Пришлите фото и нажмите «Готово ✅»." (some .PHOTO_ACTIONS)),
          .mutate s1, .persist s1], none⟩
      else
        match (sendSubmissionToTarget net submission).2 with
        | none =>
          let s1 := { submission with status := "sent", last_error := none }
          ⟨updateSubmission db s1,
           (sendSubmissionToTarget net submission).1 ++ [.mutate s1, .persist s1,
             .send (.message (.user userId) "Фото доставлены, спасибо!" (some .START))], none⟩
        | some e =>
          let s1 := { submission with attempts := submission.attempts + 1, last_error := some e }
          ⟨updateSubmission db s1,
           (sendSubmissionToTarget net submission).1 ++ [.mutate s1, .persist s1,
             .send (.message (.user userId) "Не удалось доставить фото в группу. Проверьте и нажмите «Повторить отправку», либо отмените заявку." (some .RETRY_ACTIONS))], none⟩
    else
      let ph := handleIncomingPhoto db submission msg
      if ph.err.isSome then ⟨ph.db, ph.trace, ph.err⟩
      else if ph.handled then
        let s1 := { submission with status := "collecting" }
        ⟨updateSubmission ph.db s1, ph.trace ++ [.mutate s1, .persist s1], none⟩
      else
        ⟨db, [.send (.message (.user userId) "Последняя отправка не удалась. Нажмите «Повторить отправку» или «Отмена»." (some .RETRY_ACTIONS))], none⟩
  else if submission.status = "confirming" then
    if text = some "➕ Добавить фото" then
      let s1 := { submission with status := "collecting" }
      ⟨updateSubmission db s1,
       [.mutate s1, .persist s1,
        .send (.message (.user userId) "Добавляйте фото и нажмите «Готово ✅», когда закончите." (some .PHOTO_ACTIONS))], none⟩
    else if text = some "✅ Отправить" then
      match (sendSubmissionToTarget net submission).2 with
      | none =>
        let s1 := { submission with status := "sent", last_error := none }
        ⟨updateSubmission db s1,
         (sendSubmissionToTarget net submission).1 ++ [.mutate s1, .persist s1,
           .send (.message (.user userId) "Фото доставлены, спасибо!" (some .START))], none⟩
      | some e =>
        let s1 := { submission with status := "failed", attempts := submission.attempts + 1, last_error := some e }
        ⟨updateSubmission db s1,
         (sendSubmissionToTarget net submission).1 ++ [.mutate s1, .persist s1,
           .send (.message (.user userId) "Не удалось доставить фото в группу. Нажмите «Повторить отправку» или «Отмена»." (some .RETRY_ACTIONS))], none⟩
    else
      ⟨db, [.send (.message (.user userId) "Выберите действие: добавить фото, отправить или отменить." (some .CONFIRM_ACTIONS))], none⟩
  else if submission.status ≠ "collecting" then
    ⟨db, [.send (.message (.user userId) chooseScenarioText (some .START))], none⟩
  else
    handleCollecting db userId submission msg text

def handleMessage (net : Net) (db : Db) (msg : TgMessage) : HandlerOut :=
  if msg.chat_type ≠ "private" then ⟨db, [], none⟩
  else
    match msg.from_id with
    | none => ⟨db, [], none⟩
    | some userId =>
      let chatId := msg.chat_id
      let sub? := getActiveSubmission db userId
      let text := msg.text.map jsTrim
      if text = some "/start" then
        match sub? with
        | some s =>
          let s1 := { s with status := "failed", last_error := some "cancelled_by_user" }
          ⟨updateSubmission db s1,
           [.mutate s1, .persist s1,
            .send (.message (.user userId) "Привет! Выберите, что хотите отправить." (some .START))], none⟩
        | none =>
          ⟨db, [.send (.message (.user userId) "Привет! Выберите, что хотите отправить." (some .START))], none⟩
      else if text = some "/cancel" then
        match sub? with
        | some s =>
          let s1 := { s with status := "failed", last_error := some "cancelled_by_user" }
          ⟨updateSubmission db s1,
           [.mutate s1, .persist s1,
            .send (.message (.user userId) "Диалог сброшен. Чтобы начать заново, выберите сценарий ниже." (some .START))], none⟩
        | none =>
          ⟨db, [.send (.message (.user userId) "Диалог сброшен. Чтобы начать заново, выберите сценарий ниже." (some .START))], none⟩
      else if text = some "Отмена" then
        match sub? with
        | some s =>
          let s1 := { s with status := "failed", last_error := some "cancelled_by_user" }
          ⟨updateSubmission db s1,
           [.mutate s1, .persist s1,
            .send (.message (.user userId) "Заявка отменена. Чтобы начать заново, выберите сценарий ниже." (some .START))], none⟩
        | none =>
          ⟨db, [.send (.message (.user userId) "Заявка отменена. Чтобы начать заново, выберите сценарий ниже." (some .START))], none⟩
      else if text = some "❌ Отмена" then
        match sub? with
        | some s =>
          let s1 := { s with status := "failed", last_error := some "cancelled_by_user" }
          ⟨updateSubmission db s1,
           [.mutate s1, .persist s1,
            .send (.message (.user userId) "Заявка отменена. Чтобы начать заново, выберите сценарий ниже." (some .START))], none⟩
        | none =>
          ⟨db, [.send (.message (.user userId) "Заявка отменена. Чтобы начать заново, выберите сценарий ниже." (some .START))], none⟩
      else if text = some "🏆 Соревнования ШСК" then
        match sub? with
        | some s =>
          let s1 := { s with status := "failed", last_error := some "restart_by_user" }
          ⟨(createSubmission (updateSubmission db s1) userId chatId "competition").1,
           [.mutate s1, .persist s1,
            .create (createSubmission (updateSubmission db s1) userId chatId "competition").2,
            .send (.message (.user userId) "Укажите дату (дд.мм.гг или дд.мм.гггг):" none)], none⟩
        | none =>
          ⟨(createSubmission db userId chatId "competition").1,
           [.create (createSubmission db userId chatId "competition").2,
            .send (.message (.user userId) "Укажите дату (дд.мм.гг или дд.мм.гггг):" none)], none⟩
      else if text = some "🌟 Достижения детей" then
        match sub? with
        | some s =>
          let s1 := { s with status := "failed", last_error := some "restart_by_user" }
          ⟨(createSubmission (updateSubmission db s1) userId chatId "achievement").1,
           [.mutate s1, .persist s1,
            .create (createSubmission (updateSubmission db s1) userId chatId "achievement").2,
            .send (.message (.user userId) "Опишите достижение детей (до 700 символов):" none)], none⟩
        | none =>
          ⟨(createSubmission db userId chatId "achievement").1,
           [.create (createSubmission db userId chatId "achievement").2,
            .send (.message (.user userId) "Опишите достижение детей (до 700 символов):" none)], none⟩
      else
        match sub? with
        | none => ⟨db, [.send (.message (.user userId) chooseScenarioText (some .START))], none⟩
        | some submission =>
          handleActive net db userId submission msg text

/-! ### The request dispatcher (`serve`) -/

inductive HttpResponse where
  | ok
  | methodNotAllowed
deriving DecidableEq, Repr

/-- `notifyAdminError`: report an internal error to the target chat. -/
def notifyAdminAction (e : String) : Action :=
  .send (.message .target ("Ошибка обработки: " ++ e) none)

/-- The `serve` handler on a POST request carrying a parsed update: dedup
first (a duplicate acknowledges immediately), then dispatch to
`handleMessage`; internal errors are reported to the admin chat and the
transport is still acknowledged with success. -/
def processUpdate (net : Net) (db : Db) (u : TgUpdate) : Db × List Action × HttpResponse :=
  let p := dedupeUpdate db u.update_id
  if p.2 then (p.1, [], .ok)
  else
    match u.message with
    | none => (p.1, [], .ok)
    | some m =>
      let r := handleMessage net p.1 m
      match r.err with
      | none => (r.db, r.trace, .ok)
      | some e => (r.db, r.trace ++ [notifyAdminAction e], .ok)

/-! ### The earlier webhook variant with the `__SKIP__` sport sentinel
(source file with `SPORT_SKIP_MARKER`, `sendSubmissionAndFinalize`,
callback-query handling).  Only the pieces a claim refers to are
embedded; it reads the same submission fields, so the shared `Submission`
structure is reused (its extra `photos_prompt_message_id` column is not
read by the embedded function). -/

namespace W1

def SPORT_SKIP_MARKER : String := "__SKIP__"

/-- `buildSubmissionHeader` of the sentinel variant: no bracket lines, and
the sport line is pushed only when the sport field does not hold the skip
marker. -/
def buildSubmissionHeader (s : Submission) : String :=
  if s.kind = "achievement" then
    String.intercalate "\n" ["🌟 Достижения детей", s.achievement_text.getD "", ""]
  else
    let eventType :=
      if s.event_type = some "Свой вариант" then s.custom_event_type.getD ""
      else s.event_type.getD ""
    let lines :=
      [s.event_date.getD "", eventType] ++
      (if s.sport = some SPORT_SKIP_MARKER then [] else [s.sport.getD ""]) ++
      [s.gender.getD "", s.stage.getD "", s.phase.getD "", ""]
    String.intercalate "\n" lines

end W1

/-! ### Trace predicates -/

def Action.isSend : Action → Bool
  | .send _ => true
  | _ => false

/-- A store write of submission state: an `updateSubmission` or a
`createSubmission`. -/
def Action.isWrite : Action → Bool
  | .persist _ => true
  | .create _ => true
  | _ => false

/-- The ordering property claim C8 states literally: if the invocation
writes submission state at all, then no outbound send may occur before the
first such write. -/
def persistedBeforeSends (tr : List Action) : Bool :=
  !(tr.any Action.isWrite) ||
    (tr.takeWhile (fun a => !a.isWrite)).all (fun a => !a.isSend)

/-- Scan a trace keeping a dirty flag: `mutate` makes the in-memory
submission diverge from the store, `persist` re-synchronises it, and a
`send` is clean only while the flag is off. -/
def cleanFrom : Bool → List Action → Bool
  | _, [] => true
  | _, .mutate _ :: tr => cleanFrom true tr
  | _, .persist _ :: tr => cleanFrom false tr
  | dirty, .create _ :: tr => cleanFrom dirty tr
  | dirty, .rpcAppend _ _ _ _ _ :: tr => cleanFrom dirty tr
  | dirty, .send _ :: tr => !dirty && cleanFrom dirty tr

/-- No outbound message is sent while the in-memory submission carries an
unpersisted mutation. -/
def noDirtySend (tr : List Action) : Bool := cleanFrom false tr

/-! ### Spec-side definitions (used to compare the code against the
spec's words) -/

/-- The date formats named by the spec and claim C7: exactly `DD.MM.YY` or
exactly `DD.MM.YYYY` (two or four year digits, nothing in between). -/
def claimedDateShape : List Char → Bool
  | [d1, d2, c3, m1, m2, c6, y1, y2] =>
      d1.isDigit && d2.isDigit && (c3 = '.') && m1.isDigit && m2.isDigit && (c6 = '.') &&
      y1.isDigit && y2.isDigit
  | [d1, d2, c3, m1, m2, c6, y1, y2, y3, y4] =>
      d1.isDigit && d2.isDigit && (c3 = '.') && m1.isDigit && m2.isDigit && (c6 = '.') &&
      y1.isDigit && y2.isDigit && y3.isDigit && y4.isDigit
  | _ => false

/-- The structured-header line list as the spec words it: date line,
resolved type (custom override when the "other" sentinel was chosen), then
the remaining fields in fixed order, with no line at all for a sport that
was skipped via the skip sentinel, and the trailing empty line of the
rendering. -/
def specStructuredHeaderLines (s : Submission) : List String :=
  [s.event_date.getD "",
   if s.event_type = some "Свой вариант" then s.custom_event_type.getD ""
   else s.event_type.getD ""] ++
  (if s.sport = some W1.SPORT_SKIP_MARKER then [] else [s.sport.getD ""]) ++
  [s.gender.getD "", s.stage.getD "", s.phase.getD "", ""]

/-- "last variant with the maximal reported size, in original order"
(claim C9's selection rule, written as a direct recursion: a later
candidate from the tail wins unless the head is strictly larger). -/
def lastMaxCand : List PhotoSize → Option PhotoSize
  | [] => none
  | p :: ps =>
    some
      (match lastMaxCand ps with
       | none => p
       | some q => if photoSize q < photoSize p then p else q)

/-- The size comparison as a relation (`Prop` form of `sizeLe`). -/
def sizeLeR (a b : PhotoSize) : Prop := photoSize a ≤ photoSize b

instance : DecidableRel sizeLeR := fun _ _ => Nat.decLe _ _

instance : IsTotal PhotoSize sizeLeR := ⟨fun a b => Nat.le_total _ _⟩

instance : IsTrans PhotoSize sizeLeR := ⟨fun _ _ _ => Nat.le_trans⟩

/-- An inbound private-chat text message from the given user. -/
def textMsg (u chat : Int) (mid : Nat) (t : String) : TgMessage :=
  { message_id := mid
    chat_id := chat
    chat_type := "private"
    from_id := some u
    text := some t
    photo := [] }

/-! ### Concrete fixtures for witnesses -/

/-- A network oracle on which every Telegram call succeeds. -/
def netOk : Net := fun _ => none

/-- A network oracle on which every Telegram call fails with a fixed
error text. -/
def netFail : Net := fun _ => some "Telegram API error (sendMessage): 502"

/-- A blank submission of user 7. -/
def subBase : Submission :=
  { id := 1
    user_id := 7
    chat_id := 7
    created_at := 0
    kind := "competition"
    event_date := none
    event_type := none
    custom_event_type := none
    sport := none
    gender := none
    stage := none
    phase := none
    achievement_text := none
    photo_file_ids := []
    photo_unique_ids := []
    status := "collecting"
    attempts := 0
    last_error := none }

/-- A store holding exactly the given submission of user 7. -/
def dbWith (s : Submission) : Db :=
  { submissions := [s], tg_updates := [], nextId := 2, now := 1 }

/-- A fully answered structured submission whose sport was skipped via the
sentinel and whose type is the custom "other" override. -/
def c6sample : Submission :=
  { subBase with
      event_date := some "01.09.25"
      event_type := some "Свой вариант"
      custom_event_type := some "Кубок округа"
      sport := some "__SKIP__"
      gender := some "Девочки"
      stage := some "Москва"
      phase := some "Группы" }

/-- A confirming submission with two collected photos. -/
def c5sample : Submission :=
  { subBase with
      event_date := some "01.09.25"
      event_type := some "Фестиваль"
      sport := some "Волейбол"
      gender := some "Девочки"
      stage := some "Москва"
      phase := some "Группы"
      photo_file_ids := ["f1", "f2"]
      photo_unique_ids := ["u1", "u2"]
      status := "confirming" }

/-! ### Claim C3 vocabulary: control events and invariants -/

/-- The event alphabet of claim C3: the start/reset and cancel commands
recognised at any status, plus the two intake-start menu buttons. -/
inductive CtrlEvent where
  | start
  | cancel
  | cancelText
  | cancelBtn
  | intakeCompetition
  | intakeAchievement
deriving DecidableEq, Repr

def CtrlEvent.text : CtrlEvent → String
  | .start => "/start"
  | .cancel => "/cancel"
  | .cancelText => "Отмена"
  | .cancelBtn => "❌ Отмена"
  | .intakeCompetition => "🏆 Соревнования ШСК"
  | .intakeAchievement => "🌟 Достижения детей"

/-- The reason code the branch writes into `last_error`. -/
def CtrlEvent.reason : CtrlEvent → String
  | .intakeCompetition => "restart_by_user"
  | .intakeAchievement => "restart_by_user"
  | _ => "cancelled_by_user"

def CtrlEvent.isIntake : CtrlEvent → Bool
  | .intakeCompetition => true
  | .intakeAchievement => true
  | _ => false

def CtrlEvent.kind : CtrlEvent → String
  | .intakeAchievement => "achievement"
  | _ => "competition"

/-- The control event as an inbound private-chat message. -/
def ctrlMsg (u chat : Int) (e : CtrlEvent) : TgMessage :=
  textMsg u chat 1 e.text

/-- Process a sequence of control events from one user through the
dialogue handler. -/
def runCtrl (net : Net) (u chat : Int) : Db → List CtrlEvent → Db
  | db, [] => db
  | db, e :: es => runCtrl net u chat (handleMessage net db (ctrlMsg u chat e)).db es

/-- The failed record the cancel/restart branches write. -/
def failSub (s : Submission) (r : String) : Submission :=
  { s with status := "failed", last_error := some r }

/-- A non-terminal lifecycle status per the spec:
`collecting`, `confirming`, or `sending`/`pending_send`. -/
def NonTerminal (s : Submission) : Prop :=
  s.status = "collecting" ∨ s.status = "confirming" ∨ s.status = "sending" ∨
    s.status = "pending_send"

/-- Loaded by the active-submission lookup. -/
def Eligible (s : Submission) : Prop := s.status ∈ activeStatuses

/-- Every submission of the user carries one of the four statuses the
webhook ever writes. -/
def StatusClosed (db : Db) (u : Int) : Prop :=
  ∀ s ∈ db.submissions, s.user_id = u →
    s.status = "collecting" ∨ s.status = "confirming" ∨ s.status = "failed" ∨
      s.status = "sent"

/-- Any non-terminal submission of the user is strictly newer than every
other lookup-eligible submission of the user (so the lookup always finds
it). -/
def ActiveNewest (db : Db) (u : Int) : Prop :=
  ∀ s ∈ db.submissions, s.user_id = u → NonTerminal s →
    ∀ t ∈ db.submissions, t.user_id = u → Eligible t → t ≠ s →
      t.created_at < s.created_at

/-- The inductive invariant of claim C3. -/
def UserInv (db : Db) (u : Int) : Prop := StatusClosed db u ∧ ActiveNewest db u

/-- Store well-formedness: creation timestamps are strictly below the
clock and pairwise distinct (rows are inserted at strictly increasing
logical times). -/
def Db.WF (db : Db) : Prop :=
  (∀ s ∈ db.submissions, s.created_at < db.now) ∧
    (db.submissions.map (fun s => s.created_at)).Nodup

/-- At most one submission of the user is in a non-terminal status. -/
def AtMostOneActive (db : Db) (u : Int) : Prop :=
  ∀ s ∈ db.submissions, s.user_id = u → NonTerminal s →
    ∀ t ∈ db.submissions, t.user_id = u → NonTerminal t → s = t

instance (s : Submission) : Decidable (NonTerminal s) :=
  inferInstanceAs (Decidable (s.status = "collecting" ∨ s.status = "confirming" ∨
    s.status = "sending" ∨ s.status = "pending_send"))

instance (s : Submission) : Decidable (Eligible s) :=
  inferInstanceAs (Decidable (s.status ∈ activeStatuses))

instance (db : Db) (u : Int) : Decidable (StatusClosed db u) :=
  inferInstanceAs (Decidable (∀ s ∈ db.submissions, s.user_id = u →
    s.status = "collecting" ∨ s.status = "confirming" ∨ s.status = "failed" ∨
      s.status = "sent"))

instance (db : Db) (u : Int) : Decidable (ActiveNewest db u) :=
  inferInstanceAs (Decidable (∀ s ∈ db.submissions, s.user_id = u → NonTerminal s →
    ∀ t ∈ db.submissions, t.user_id = u → Eligible t → t ≠ s →
      t.created_at < s.created_at))

instance (db : Db) (u : Int) : Decidable (UserInv db u) :=
  inferInstanceAs (Decidable (StatusClosed db u ∧ ActiveNewest db u))

instance (db : Db) : Decidable db.WF :=
  inferInstanceAs (Decidable ((∀ s ∈ db.submissions, s.created_at < db.now) ∧
    (db.submissions.map (fun s : Submission => s.created_at)).Nodup))

/-! # Theorems -/

/-! ### Chunking lemmas -/

theorem chunkGo_fuel (s : Nat) (fuel : Nat) :
    ∀ (l : List α), l.length ≤ fuel → chunkGo (s + 1) fuel l = chunkGo (s + 1) l.length l := by
  induction fuel using Nat.strong_induction_on with
  | _ fuel ih =>
    intro l hl
    match fuel, l with
    | 0, [] => rfl
    | f + 1, [] => rfl
    | 0, x :: xs => simp at hl
    | f + 1, x :: xs =>
      simp only [chunkGo, List.length_cons]
      have hd : ((x :: xs).drop (s + 1)).length ≤ xs.length := by
        simp only [List.length_drop, List.length_cons]
        omega
      have hlf : xs.length ≤ f := by
        simp only [List.length_cons] at hl
        omega
      rw [ih f (by omega) _ (le_trans hd hlf), ih xs.length (by omega) _ hd]

theorem chunkArray_nil (size : Nat) : chunkArray ([] : List α) size = [] := by
  match size with
  | 0 => rfl
  | s + 1 => rfl

theorem chunkArray_cons (s : Nat) (x : α) (xs : List α) :
    chunkArray (x :: xs) (s + 1) =
      (x :: xs).take (s + 1) :: chunkArray ((x :: xs).drop (s + 1)) (s + 1) := by
  show chunkGo (s + 1) (x :: xs).length (x :: xs) = _
  simp only [List.length_cons, chunkGo]
  rw [chunkGo_fuel s xs.length]
  · rfl
  · simp only [List.length_drop, List.length_cons]
    omega

theorem chunkArray_flatten (s : Nat) (l : List α) :
    (chunkArray l (s + 1)).flatten = l := by
  have H : ∀ (n : Nat) (l : List α), l.length = n → (chunkArray l (s + 1)).flatten = l := by
    intro n
    induction n using Nat.strong_induction_on with
    | _ n ih =>
      intro l hn
      match l with
      | [] => simp [chunkArray_nil]
      | x :: xs =>
        have hlt : ((x :: xs).drop (s + 1)).length < n := by
          subst hn
          simp only [List.length_drop, List.length_cons]
          omega
        rw [chunkArray_cons, List.flatten_cons, ih _ hlt _ rfl, List.take_append_drop]
  exact H l.length l rfl

theorem chunkArray_length (s : Nat) (l : List α) :
    (chunkArray l (s + 1)).length = (l.length + s) / (s + 1) := by
  have H : ∀ (n : Nat) (l : List α), l.length = n →
      (chunkArray l (s + 1)).length = (l.length + s) / (s + 1) := by
    intro n
    induction n using Nat.strong_induction_on with
    | _ n ih =>
      intro l hn
      match l with
      | [] => simp [chunkArray_nil, Nat.div_eq_of_lt]
      | x :: xs =>
        have hlt : ((x :: xs).drop (s + 1)).length < n := by
          subst hn
          simp only [List.length_drop, List.length_cons]
          omega
        rw [chunkArray_cons, List.length_cons, ih _ hlt _ rfl]
        simp only [List.length_drop, List.length_cons]
        rcases Nat.le_total xs.length s with h | h
        · have h1 : xs.length + 1 - (s + 1) + s = s := by omega
          have h2 : xs.length + 1 + s = xs.length + (s + 1) := by omega
          have e1 : s / (s + 1) = 0 := Nat.div_eq_of_lt (by omega)
          have e2 : xs.length / (s + 1) = 0 := Nat.div_eq_of_lt (by omega)
          rw [h1, h2, Nat.add_div_right _ (Nat.succ_pos s), e1, e2]
        · have h1 : xs.length + 1 - (s + 1) + s = xs.length := by omega
          have h2 : xs.length + 1 + s = xs.length + (s + 1) := by omega
          rw [h1, h2, Nat.add_div_right _ (Nat.succ_pos s)]
  exact H l.length l rfl

theorem chunkArray_sizes (s : Nat) (l : List α) :
    ∀ c ∈ chunkArray l (s + 1), c.length ≤ s + 1 := by
  have H : ∀ (n : Nat) (l : List α), l.length = n →
      ∀ c ∈ chunkArray l (s + 1), c.length ≤ s + 1 := by
    intro n
    induction n using Nat.strong_induction_on with
    | _ n ih =>
      intro l hn
      match l with
      | [] => simp [chunkArray_nil]
      | x :: xs =>
        have hlt : ((x :: xs).drop (s + 1)).length < n := by
          subst hn
          simp only [List.length_drop, List.length_cons]
          omega
        rw [chunkArray_cons]
        intro c hc
        rcases List.mem_cons.mp hc with rfl | hc
        · exact List.length_take_le _ _
        · exact ih _ hlt _ rfl c hc
  exact H l.length l rfl

/-! ## Claim C4: chunking correctness of the delivery -/

/-- C4: for every photo list, the delivery consists of the header call
followed by one batch call per chunk; there are exactly
`⌈N/10⌉ = (N + 9) / 10` batch calls, each of size at most 10, and the
concatenation of the batches in call order is the original photo list. -/
theorem c4_chunking_correct (s : Submission) :
    let batches := chunkArray s.photo_file_ids 10
    deliverCalls s =
        .message .target (buildSubmissionHeader s) none ::
          batches.map (Outbound.mediaGroup .target) ∧
      batches.length = (s.photo_file_ids.length + 9) / 10 ∧
      (∀ c ∈ batches, c.length ≤ 10) ∧
      batches.flatten = s.photo_file_ids := by
  refine ⟨rfl, ?_, ?_, ?_⟩
  · exact chunkArray_length 9 s.photo_file_ids
  · exact chunkArray_sizes 9 s.photo_file_ids
  · exact chunkArray_flatten 9 s.photo_file_ids

/-! ## Claims C1 and C10: the stored append procedure -/

/-- C1 as stated is false on the code: the stored procedure decides `added`
and the file-list mutation by membership of the *file reference* in
`photo_file_ids`, not by the dedup key.  Starting from an empty submission,
a first call with (file "a", dedup key "k") and a second call with the same
dedup key "k" but file "b" reports `added = true` on *both* calls, and the
photo count after the second call is 2, not the count after the first
call. -/
theorem c1_counterexample :
    (append_submission_photo [] [] "a" "k").added = true ∧
      (append_submission_photo [] [] "a" "k").photo_count = 1 ∧
      (append_submission_photo
          (append_submission_photo [] [] "a" "k").files
          (append_submission_photo [] [] "a" "k").uniques "b" "k").added = true ∧
      (append_submission_photo
          (append_submission_photo [] [] "a" "k").files
          (append_submission_photo [] [] "a" "k").uniques "b" "k").photo_count = 2 := by
  decide

/-- C1 amended: for any submission state whose photo file list does not yet
contain the file reference `f`, calling the append procedure twice with the
*same file reference and dedup key* yields `added = true` then
`added = false`; the second call leaves both photo lists unchanged and the
final photo count equals the count after the first call. -/
theorem c1_append_idempotent_same_file (files uniques : List String) (f u : String)
    (hf : f ∉ files) :
    (append_submission_photo files uniques f u).added = true ∧
      (append_submission_photo
          (append_submission_photo files uniques f u).files
          (append_submission_photo files uniques f u).uniques f u).added = false ∧
      (append_submission_photo
          (append_submission_photo files uniques f u).files
          (append_submission_photo files uniques f u).uniques f u).files =
        (append_submission_photo files uniques f u).files ∧
      (append_submission_photo
          (append_submission_photo files uniques f u).files
          (append_submission_photo files uniques f u).uniques f u).uniques =
        (append_submission_photo files uniques f u).uniques ∧
      (append_submission_photo
          (append_submission_photo files uniques f u).files
          (append_submission_photo files uniques f u).uniques f u).photo_count =
        (append_submission_photo files uniques f u).photo_count := by
  by_cases hcu : u ∈ uniques <;>
    refine ⟨by simp [append_submission_photo, hf], ?_, ?_, ?_, ?_⟩ <;>
      simp [append_submission_photo, hf, hcu]

theorem c1_witness :
    ("a" ∉ ([] : List String)) ∧
      ((append_submission_photo [] [] "a" "k").added = true ∧
        (append_submission_photo
            (append_submission_photo [] [] "a" "k").files
            (append_submission_photo [] [] "a" "k").uniques "a" "k").added = false ∧
        (append_submission_photo
            (append_submission_photo [] [] "a" "k").files
            (append_submission_photo [] [] "a" "k").uniques "a" "k").files =
          (append_submission_photo [] [] "a" "k").files ∧
        (append_submission_photo
            (append_submission_photo [] [] "a" "k").files
            (append_submission_photo [] [] "a" "k").uniques "a" "k").uniques =
          (append_submission_photo [] [] "a" "k").uniques ∧
        (append_submission_photo
            (append_submission_photo [] [] "a" "k").files
            (append_submission_photo [] [] "a" "k").uniques "a" "k").photo_count =
          (append_submission_photo [] [] "a" "k").photo_count) :=
  ⟨by decide, c1_append_idempotent_same_file [] [] "a" "k" (by decide)⟩

/-- C10: the stored procedure keeps both photo lists duplicate-free but
updates them independently.  `added` and the file-list result depend only
on membership of the file reference in `photo_file_ids` (they are unchanged
under any replacement of the unique-id list and dedup key), the dedup key
is checked only against `photo_unique_ids` (the unique-list result is
unchanged under any replacement of the file list and file reference), and
appending a previously seen dedup key together with a fresh file reference
appends the file, reports `added = true`, leaves `photo_unique_ids` as it
was, and makes the two lists differ in length when they started equal. -/
theorem c10_append_lists_independent (files uniques : List String) (f u : String)
    (hnf : files.Nodup) (hnu : uniques.Nodup) (hu : u ∈ uniques) (hf : f ∉ files) :
    (∀ g v, ((append_submission_photo files uniques g v).files.Nodup ∧
        (append_submission_photo files uniques g v).uniques.Nodup)) ∧
      (∀ uniques2 v, (append_submission_photo files uniques2 f v).added =
            (append_submission_photo files uniques f u).added ∧
          (append_submission_photo files uniques2 f v).files =
            (append_submission_photo files uniques f u).files) ∧
      (∀ files2 g, (append_submission_photo files2 uniques g u).uniques =
          (append_submission_photo files uniques f u).uniques) ∧
      ((append_submission_photo files uniques f u).added = true ∧
        (append_submission_photo files uniques f u).files = files ++ [f] ∧
        (append_submission_photo files uniques f u).uniques = uniques ∧
        (append_submission_photo files uniques f u).photo_count = files.length + 1) ∧
      ((append_submission_photo files uniques f u).files.length = files.length + 1 ∧
        (append_submission_photo files uniques f u).uniques.length = uniques.length) := by
  refine ⟨?_, ?_, ?_, ?_, ?_⟩
  · intro g v
    constructor
    · by_cases hg : g ∈ files
      · simpa [append_submission_photo, hg] using hnf
      · rw [show (append_submission_photo files uniques g v).files = files ++ [g] by
          simp [append_submission_photo, hg]]
        rw [← List.concat_eq_append]
        exact List.Nodup.concat hg hnf
    · by_cases hv : v ∈ uniques
      · simpa [append_submission_photo, hv] using hnu
      · rw [show (append_submission_photo files uniques g v).uniques = uniques ++ [v] by
          simp [append_submission_photo, hv]]
        rw [← List.concat_eq_append]
        exact List.Nodup.concat hv hnu
  · intro uniques2 v
    exact ⟨rfl, rfl⟩
  · intro files2 g
    simp [append_submission_photo, hu]
  · refine ⟨?_, ?_, ?_, ?_⟩ <;> simp [append_submission_photo, hf, hu]
  · constructor <;> simp [append_submission_photo, hf, hu]

theorem c10_witness :
    (["a"] : List String).Nodup ∧ (["k"] : List String).Nodup ∧
      "k" ∈ (["k"] : List String) ∧ "b" ∉ (["a"] : List String) ∧
      ((append_submission_photo ["a"] ["k"] "b" "k").added = true ∧
        (append_submission_photo ["a"] ["k"] "b" "k").files = ["a", "b"] ∧
        (append_submission_photo ["a"] ["k"] "b" "k").uniques = ["k"] ∧
        (append_submission_photo ["a"] ["k"] "b" "k").photo_count = 2) :=
  ⟨by decide, by decide, by decide, by decide,
    (c10_append_lists_independent ["a"] ["k"] "b" "k"
      (by decide) (by decide) (by decide) (by decide)).2.2.2.1⟩

/-! ## Claim C9: selection of the largest photo variant -/

theorem sizeLe_trans : ∀ a b c : PhotoSize,
    sizeLe a b = true → sizeLe b c = true → sizeLe a c = true := by
  intro a b c hab hbc
  simp only [sizeLe, decide_eq_true_eq] at *
  omega

theorem sizeLe_total : ∀ a b : PhotoSize, (sizeLe a b || sizeLe b a) = true := by
  intro a b
  simp only [sizeLe, Bool.or_eq_true, decide_eq_true_eq]
  omega

theorem orderedInsert_append (a : PhotoSize) (l₁ l₂ : List PhotoSize)
    (h1 : ∀ b ∈ l₁, ¬ sizeLeR a b)
    (h2 : ∀ c, l₂.head? = some c → sizeLeR a c) :
    List.orderedInsert sizeLeR a (l₁ ++ l₂) = l₁ ++ a :: l₂ := by
  induction l₁ with
  | nil =>
    cases l₂ with
    | nil => rfl
    | cons c cs => simp [List.orderedInsert, h2 c rfl]
  | cons b bs ih =>
    simp only [List.cons_append, List.orderedInsert, List.append_eq]
    rw [if_neg (h1 b (by simp)), ih (fun x hx => h1 x (by simp [hx]))]

/-- JavaScript `Array.prototype.sort` is stable; so is `List.mergeSort`,
and a stable ascending sort is unique: `mergeSort` by the size comparator
coincides with the stable insertion sort by the same comparator. -/
theorem mergeSort_sizeLe_eq (l : List PhotoSize) :
    l.mergeSort sizeLe = List.insertionSort sizeLeR l := by
  induction l with
  | nil => simp [List.mergeSort_nil, List.insertionSort]
  | cons a l ih =>
    obtain ⟨l₁, l₂, h1, h2, h3⟩ := List.mergeSort_cons sizeLe_trans sizeLe_total a l
    have hsorted := List.sorted_mergeSort sizeLe_trans sizeLe_total (a :: l)
    rw [h1] at hsorted
    have ha2 : ∀ c, l₂.head? = some c → sizeLeR a c := by
      intro c hc
      have hp := (List.pairwise_append.mp hsorted).2.1
      cases l₂ with
      | nil => simp at hc
      | cons d ds =>
        have : sizeLe a d = true := (List.pairwise_cons.mp hp).1 d (by simp)
        have hd : d = c := by simpa using hc
        subst hd
        simpa [sizeLeR, sizeLe] using this
    have h3' : ∀ b ∈ l₁, ¬ sizeLeR a b := by
      intro b hb
      have := h3 b hb
      simpa [sizeLeR, sizeLe] using this
    rw [h1, List.insertionSort, ← ih, h2, orderedInsert_append a l₁ l₂ h3' ha2]

theorem getLast?_cons_of_ne_nil (a : α) (l : List α) (h : l ≠ []) :
    (a :: l).getLast? = l.getLast? := by
  cases l with
  | nil => exact absurd rfl h
  | cons b bs => exact List.getLast?_cons_cons

theorem getLast?_orderedInsert (p : PhotoSize) (l : List PhotoSize)
    (hl : List.Sorted sizeLeR l) :
    (List.orderedInsert sizeLeR p l).getLast? =
      some
        (match l.getLast? with
         | none => p
         | some q => if photoSize q < photoSize p then p else q) := by
  induction l with
  | nil => rfl
  | cons q qs ih =>
    by_cases hpq : sizeLeR p q
    · have hne : q :: qs ≠ [] := by simp
      have hr : (q :: qs).getLast? = some ((q :: qs).getLast hne) :=
        List.getLast?_eq_getLast _ hne
      have hqr : sizeLeR q ((q :: qs).getLast hne) := by
        rcases List.mem_cons.mp (List.getLast_mem hne) with h | h
        · rw [h]
          exact Nat.le_refl _
        · exact List.rel_of_sorted_cons hl _ h
      have hpr : photoSize p ≤ photoSize ((q :: qs).getLast hne) := le_trans hpq hqr
      simp only [List.orderedInsert, if_pos hpq]
      rw [List.getLast?_cons_cons, hr]
      show _ = some (if photoSize ((q :: qs).getLast hne) < photoSize p then p
        else (q :: qs).getLast hne)
      rw [if_neg (by omega)]
    · have hqp : photoSize q < photoSize p := by
        simpa [sizeLeR, Nat.not_le] using hpq
      simp only [List.orderedInsert, if_neg hpq]
      cases qs with
      | nil =>
        rw [getLast?_cons_of_ne_nil q (List.orderedInsert sizeLeR p []) (by simp [List.orderedInsert])]
        show (List.orderedInsert sizeLeR p []).getLast? =
          some (if photoSize q < photoSize p then p else q)
        rw [if_pos hqp]
        rfl
      | cons c cs =>
        have hqs : List.Sorted sizeLeR (c :: cs) := hl.of_cons
        have hnn : List.orderedInsert sizeLeR p (c :: cs) ≠ [] := by
          simp only [List.orderedInsert]
          split <;> simp
        rw [getLast?_cons_of_ne_nil _ _ hnn, ih hqs, List.getLast?_cons_cons]

theorem getLast?_insertionSort (l : List PhotoSize) :
    (List.insertionSort sizeLeR l).getLast? = lastMaxCand l := by
  induction l with
  | nil => rfl
  | cons p ps ih =>
    have hs : List.Sorted sizeLeR (List.insertionSort sizeLeR ps) :=
      List.sorted_insertionSort sizeLeR ps
    simp only [List.insertionSort]
    rw [getLast?_orderedInsert _ _ hs, ih]
    rfl

theorem lastMaxCand_none_iff (l : List PhotoSize) : lastMaxCand l = none ↔ l = [] := by
  cases l with
  | nil => simp [lastMaxCand]
  | cons p ps => simp [lastMaxCand]

theorem lastMaxCand_spec :
    ∀ (l : List PhotoSize), l ≠ [] →
      ∃ i : Fin l.length,
        lastMaxCand l = some (l.get i) ∧
          (∀ j : Fin l.length, photoSize (l.get j) ≤ photoSize (l.get i)) ∧
          (∀ j : Fin l.length, photoSize (l.get j) = photoSize (l.get i) → (j : Nat) ≤ (i : Nat))
  | [], h => absurd rfl h
  | p :: ps, _ => by
    cases hps : lastMaxCand ps with
    | none =>
      have hnil : ps = [] := (lastMaxCand_none_iff ps).mp hps
      subst hnil
      refine ⟨⟨0, by simp⟩, by simp [lastMaxCand], ?_, ?_⟩
      · intro j
        have hj1 : (j : Nat) < 1 := by simpa using j.isLt
        have hj : j = ⟨0, by simp⟩ := Fin.ext (show (j : Nat) = 0 by omega)
        rw [hj]
      · intro j _
        have hj1 : (j : Nat) < 1 := by simpa using j.isLt
        show (j : Nat) ≤ 0
        omega
    | some q =>
      have hne : ps ≠ [] := by
        intro h
        subst h
        simp [lastMaxCand] at hps
      obtain ⟨i', h1, h2, h3⟩ := lastMaxCand_spec ps hne
      have hq : q = ps.get i' := by
        rw [hps] at h1
        exact Option.some.inj h1
      by_cases hlt : photoSize q < photoSize p
      · refine ⟨⟨0, by simp⟩, ?_, ?_, ?_⟩
        · simp [lastMaxCand, hps, hlt]
        · intro j
          match j with
          | ⟨0, _⟩ => exact le_refl _
          | ⟨k + 1, hk⟩ =>
            have hk' : k < ps.length := by simpa using hk
            have := h2 ⟨k, hk'⟩
            rw [← hq] at this
            simpa using le_trans this (le_of_lt hlt)
        · intro j hj
          match j, hj with
          | ⟨0, _⟩, _ => exact Nat.le_refl _
          | ⟨k + 1, hk⟩, hj =>
            have hk' : k < ps.length := by simpa using hk
            have h2' := h2 ⟨k, hk'⟩
            rw [← hq] at h2'
            have hj' : photoSize ((p :: ps).get ⟨k + 1, hk⟩) = photoSize p := hj
            have hget : (p :: ps).get ⟨k + 1, hk⟩ = ps.get ⟨k, hk'⟩ := rfl
            rw [hget] at hj'
            omega
      · have hle : photoSize p ≤ photoSize q := by omega
        refine ⟨⟨i' + 1, by simpa using i'.isLt⟩, ?_, ?_, ?_⟩
        · have hget : (p :: ps).get ⟨i' + 1, by simpa using i'.isLt⟩ = ps.get i' := by
            cases i'
            rfl
          rw [hget, ← hq]
          simp [lastMaxCand, hps, hlt]
        · intro j
          have hget : (p :: ps).get ⟨i' + 1, by simpa using i'.isLt⟩ = ps.get i' := by
            cases i'
            rfl
          rw [hget, ← hq]
          match j with
          | ⟨0, _⟩ => exact hle
          | ⟨k + 1, hk⟩ =>
            have hk' : k < ps.length := by simpa using hk
            have := h2 ⟨k, hk'⟩
            rw [← hq] at this
            simpa using this
        · intro j hj
          have hget : (p :: ps).get ⟨i' + 1, by simpa using i'.isLt⟩ = ps.get i' := by
            cases i'
            rfl
          match j, hj with
          | ⟨0, _⟩, _ => simp
          | ⟨k + 1, hk⟩, hj =>
            have hk' : k < ps.length := by simpa using hk
            rw [hget, ← hq] at hj
            have hj' : photoSize (ps.get ⟨k, hk'⟩) = photoSize q := hj
            rw [hq] at hj'
            have := h3 ⟨k, hk'⟩ hj'
            simpa using Nat.succ_le_succ this

/-- C9: for every non-empty list of resolution variants,
`pickLargestPhoto` selects an element of the list whose reported byte size
(missing sizes count as 0) is maximal, and among the variants sharing that
maximal size it selects the last one in original list order. -/
theorem c9_pick_largest_photo (l : List PhotoSize) (hl : l ≠ []) :
    ∃ i : Fin l.length,
      pickLargestPhoto l = some (l.get i) ∧
        (∀ j : Fin l.length, photoSize (l.get j) ≤ photoSize (l.get i)) ∧
        (∀ j : Fin l.length, photoSize (l.get j) = photoSize (l.get i) → (j : Nat) ≤ (i : Nat)) := by
  obtain ⟨i, h1, h2, h3⟩ := lastMaxCand_spec l hl
  refine ⟨i, ?_, h2, h3⟩
  rw [pickLargestPhoto, if_neg hl, mergeSort_sizeLe_eq, getLast?_insertionSort, h1]

theorem c9_witness :
    ([⟨"a", none, some 5⟩, ⟨"b", none, some 7⟩, ⟨"c", some "cu", some 7⟩,
        ⟨"d", none, none⟩] : List PhotoSize) ≠ [] ∧
      ∃ i : Fin ([⟨"a", none, some 5⟩, ⟨"b", none, some 7⟩, ⟨"c", some "cu", some 7⟩,
          ⟨"d", none, none⟩] : List PhotoSize).length,
        pickLargestPhoto [⟨"a", none, some 5⟩, ⟨"b", none, some 7⟩, ⟨"c", some "cu", some 7⟩,
            ⟨"d", none, none⟩] =
            some (([⟨"a", none, some 5⟩, ⟨"b", none, some 7⟩, ⟨"c", some "cu", some 7⟩,
              ⟨"d", none, none⟩] : List PhotoSize).get i) ∧
          (∀ j, photoSize (([⟨"a", none, some 5⟩, ⟨"b", none, some 7⟩, ⟨"c", some "cu", some 7⟩,
              ⟨"d", none, none⟩] : List PhotoSize).get j) ≤
            photoSize (([⟨"a", none, some 5⟩, ⟨"b", none, some 7⟩, ⟨"c", some "cu", some 7⟩,
              ⟨"d", none, none⟩] : List PhotoSize).get i)) ∧
          (∀ j, photoSize (([⟨"a", none, some 5⟩, ⟨"b", none, some 7⟩, ⟨"c", some "cu", some 7⟩,
              ⟨"d", none, none⟩] : List PhotoSize).get j) =
            photoSize (([⟨"a", none, some 5⟩, ⟨"b", none, some 7⟩, ⟨"c", some "cu", some 7⟩,
              ⟨"d", none, none⟩] : List PhotoSize).get i) → (j : Nat) ≤ (i : Nat)) :=
  ⟨by decide,
    c9_pick_largest_photo
      [⟨"a", none, some 5⟩, ⟨"b", none, some 7⟩, ⟨"c", some "cu", some 7⟩, ⟨"d", none, none⟩]
      (by decide)⟩

/-! ## Claim C6: structured delivery header -/

/-- C6: for the structured kind, the delivery header of the sentinel
variant is exactly the newline-join of the spec's line list — date,
resolved type (the custom override when the "other" sentinel "Свой
вариант" was chosen), then the remaining fields in fixed order — and a
sport that was explicitly skipped via the skip sentinel contributes no
line at all. -/
theorem c6_structured_header_format (s : Submission) (h : s.kind ≠ "achievement") :
    W1.buildSubmissionHeader s = String.intercalate "\n" (specStructuredHeaderLines s) ∧
      (s.event_type = some "Свой вариант" →
        specStructuredHeaderLines s =
          [s.event_date.getD "", s.custom_event_type.getD ""] ++
            (if s.sport = some W1.SPORT_SKIP_MARKER then [] else [s.sport.getD ""]) ++
            [s.gender.getD "", s.stage.getD "", s.phase.getD "", ""]) ∧
      (s.sport = some W1.SPORT_SKIP_MARKER →
        specStructuredHeaderLines s =
          [s.event_date.getD "",
           if s.event_type = some "Свой вариант" then s.custom_event_type.getD ""
           else s.event_type.getD "",
           s.gender.getD "", s.stage.getD "", s.phase.getD "", ""]) := by
  refine ⟨?_, ?_, ?_⟩
  · simp [W1.buildSubmissionHeader, specStructuredHeaderLines, h]
  · intro he
    simp [specStructuredHeaderLines, he]
  · intro hskip
    simp [specStructuredHeaderLines, hskip]

theorem c6_witness :
    c6sample.kind ≠ "achievement" ∧
      (W1.buildSubmissionHeader c6sample =
          String.intercalate "\n" (specStructuredHeaderLines c6sample) ∧
        (c6sample.event_type = some "Свой вариант" →
          specStructuredHeaderLines c6sample =
            [c6sample.event_date.getD "", c6sample.custom_event_type.getD ""] ++
              (if c6sample.sport = some W1.SPORT_SKIP_MARKER then []
               else [c6sample.sport.getD ""]) ++
              [c6sample.gender.getD "", c6sample.stage.getD "", c6sample.phase.getD "", ""]) ∧
        (c6sample.sport = some W1.SPORT_SKIP_MARKER →
          specStructuredHeaderLines c6sample =
            [c6sample.event_date.getD "",
             if c6sample.event_type = some "Свой вариант" then c6sample.custom_event_type.getD ""
             else c6sample.event_type.getD "",
             c6sample.gender.getD "", c6sample.stage.getD "", c6sample.phase.getD "", ""])) :=
  ⟨by decide, c6_structured_header_format c6sample (by decide)⟩

/-! ## Claim C7: date validation in the `await_date` step -/

theorem claimedDateShape_implies (cs : List Char) (h : claimedDateShape cs = true) :
    dateShape cs = true := by
  rcases cs with _ | ⟨d1, cs⟩
  · exact absurd h (by simp [claimedDateShape])
  rcases cs with _ | ⟨d2, cs⟩
  · exact absurd h (by simp [claimedDateShape])
  rcases cs with _ | ⟨c3, cs⟩
  · exact absurd h (by simp [claimedDateShape])
  rcases cs with _ | ⟨m1, cs⟩
  · exact absurd h (by simp [claimedDateShape])
  rcases cs with _ | ⟨m2, cs⟩
  · exact absurd h (by simp [claimedDateShape])
  rcases cs with _ | ⟨c6, cs⟩
  · exact absurd h (by simp [claimedDateShape])
  rcases cs with _ | ⟨y1, cs⟩
  · exact absurd h (by simp [claimedDateShape])
  rcases cs with _ | ⟨y2, cs⟩
  · exact absurd h (by simp [claimedDateShape])
  rcases cs with _ | ⟨y3, cs⟩
  · simp only [claimedDateShape] at h
    simp_all [dateShape, List.all_eq_true]
  rcases cs with _ | ⟨y4, cs⟩
  · exact absurd h (by simp [claimedDateShape])
  rcases cs with _ | ⟨z, cs⟩
  · simp only [claimedDateShape] at h
    simp_all [dateShape, List.all_eq_true]
  · exact absurd h (by simp [claimedDateShape])

/-- C7 as stated is false on the code: the regex `\d{2}\.\d{2}\.\d{2,4}`
also accepts a three-digit year, so acceptance is not *exactly*
"`DD.MM.YY` or `DD.MM.YYYY`": the input `01.01.123` is accepted by
`isValidDate` although it matches neither claimed format (while
`2025-09-01` is rejected as the spec's scenario B expects). -/
theorem c7_counterexample :
    isValidDate "01.01.123" = true ∧
      claimedDateShape (jsTrim "01.01.123").data = false ∧
      isValidDate "2025-09-01" = false := by
  decide

/-- C7 amended: an inbound text in the `await_date` step is accepted
exactly when its trimmed form matches two digits, a dot, two digits, a
dot, and two to *four* year digits (`dateShape`); both spec formats
`DD.MM.YY` and `DD.MM.YYYY` are accepted.  On a non-matching (or empty)
text the handler leaves the store completely unchanged — so no field is
persisted and the derived step remains `await_date` — and sends exactly
one error re-prompt; on a matching text it persists the date and prompts
for the type. -/
theorem c7_await_date_validation (net : Net) (db : Db) (u chat : Int) (mid : Nat)
    (t : String) (s : Submission)
    (hs : getActiveSubmission db u = some s)
    (hstatus : s.status = "collecting")
    (hstep : getSubmissionStep s = "await_date")
    (hctrl : jsTrim t ∉ (["/start", "/cancel", "Отмена", "❌ Отмена",
      "🏆 Соревнования ШСК", "🌟 Достижения детей"] : List String)) :
    (isValidDate t = dateShape (jsTrim t).data) ∧
      (∀ w : String, claimedDateShape (jsTrim w).data = true → isValidDate w = true) ∧
      (jsTrim t = "" ∨ isValidDate (jsTrim t) = false →
        handleMessage net db (textMsg u chat mid t) =
          ⟨db, [.send (.message (.user u)
            "Дата должна быть в формате дд.мм.гг или дд.мм.гггг. Попробуйте ещё раз:" none)],
            none⟩) ∧
      (isValidDate (jsTrim t) = true →
        handleMessage net db (textMsg u chat mid t) =
          ⟨updateSubmission db { s with event_date := some (jsTrim t) },
           [.mutate { s with event_date := some (jsTrim t) },
            .persist { s with event_date := some (jsTrim t) },
            .send (.message (.user u) "Выберите тип:" (some (.options TYPE_OPTIONS)))],
            none⟩) := by
  simp only [List.mem_cons, List.not_mem_nil, not_or, or_false] at hctrl
  obtain ⟨hc1, hc2, hc3, hc4, hc5, hc6⟩ := hctrl
  refine ⟨rfl, ?_, ?_, ?_⟩
  · intro w hw
    exact claimedDateShape_implies _ hw
  · intro hbad
    have hb : (jsTrim t = "" || !isValidDate (jsTrim t)) = true := by
      rcases hbad with h | h <;> simp [h]
    simp [handleMessage, handleActive, handleCollecting, stepDate, textMsg, hs, hstatus, hstep, hc1, hc2, hc3, hc4, hc5, hc6, hb]
  · intro hgood
    have hb : (jsTrim t = "" || !isValidDate (jsTrim t)) = false := by
      have : jsTrim t ≠ "" := by
        intro h
        rw [h] at hgood
        exact absurd hgood (by decide)
      simp [this, hgood]
    simp [handleMessage, handleActive, handleCollecting, stepDate, textMsg, hs, hstatus, hstep, hc1, hc2, hc3, hc4, hc5, hc6, hb]

theorem c7_witness :
    getActiveSubmission (dbWith subBase) 7 = some subBase ∧
      subBase.status = "collecting" ∧
      getSubmissionStep subBase = "await_date" ∧
      jsTrim "2025-09-01" ∉ (["/start", "/cancel", "Отмена", "❌ Отмена",
        "🏆 Соревнования ШСК", "🌟 Достижения детей"] : List String) ∧
      ((isValidDate "2025-09-01" = dateShape (jsTrim "2025-09-01").data) ∧
        (∀ w : String, claimedDateShape (jsTrim w).data = true → isValidDate w = true) ∧
        (jsTrim "2025-09-01" = "" ∨ isValidDate (jsTrim "2025-09-01") = false →
          handleMessage netOk (dbWith subBase) (textMsg 7 7 1 "2025-09-01") =
            ⟨dbWith subBase, [.send (.message (.user 7)
              "Дата должна быть в формате дд.мм.гг или дд.мм.гггг. Попробуйте ещё раз:" none)],
              none⟩) ∧
        (isValidDate (jsTrim "2025-09-01") = true →
          handleMessage netOk (dbWith subBase) (textMsg 7 7 1 "2025-09-01") =
            ⟨updateSubmission (dbWith subBase)
                { subBase with event_date := some (jsTrim "2025-09-01") },
             [.mutate { subBase with event_date := some (jsTrim "2025-09-01") },
              .persist { subBase with event_date := some (jsTrim "2025-09-01") },
              .send (.message (.user 7) "Выберите тип:" (some (.options TYPE_OPTIONS)))],
              none⟩)) :=
  ⟨by decide, by decide, by decide, by decide,
    c7_await_date_validation netOk (dbWith subBase) 7 7 1 "2025-09-01" subBase
      (by decide) (by decide) (by decide) (by decide)⟩

/-! ## Claim C5: delivery outcome recording (inline/webhook path) -/

/-- C5: in the confirming state, pressing the send button runs the
delivery.  On full success the submission is persisted with status `sent`
and a cleared error text, and the user is notified with the success
message and returned to the start menu.  On any failure during the header
send or a chunk send, the attempt counter is incremented by exactly one,
the error text is recorded verbatim, the status becomes `failed`, and the
user is offered the retry/cancel affordance. -/
theorem c5_delivery_outcome_recording (net : Net) (db : Db) (u chat : Int) (mid : Nat)
    (s : Submission)
    (hs : getActiveSubmission db u = some s)
    (hstatus : s.status = "confirming") :
    ((sendSubmissionToTarget net s).2 = none →
        handleMessage net db (textMsg u chat mid "✅ Отправить") =
          ⟨updateSubmission db { s with status := "sent", last_error := none },
           (sendSubmissionToTarget net s).1 ++
             [.mutate { s with status := "sent", last_error := none },
              .persist { s with status := "sent", last_error := none },
              .send (.message (.user u) "Фото доставлены, спасибо!" (some .START))],
           none⟩) ∧
      (∀ e, (sendSubmissionToTarget net s).2 = some e →
        handleMessage net db (textMsg u chat mid "✅ Отправить") =
          ⟨updateSubmission db
              { s with status := "failed", attempts := s.attempts + 1, last_error := some e },
           (sendSubmissionToTarget net s).1 ++
             [.mutate
                { s with status := "failed", attempts := s.attempts + 1, last_error := some e },
              .persist
                { s with status := "failed", attempts := s.attempts + 1, last_error := some e },
              .send (.message (.user u)
                "Не удалось доставить фото в группу. Нажмите «Повторить отправку» или «Отмена»."
                (some .RETRY_ACTIONS))],
           none⟩) := by
  have htr : jsTrim "✅ Отправить" = "✅ Отправить" := by decide
  constructor
  · intro hres
    rcases hdel : sendSubmissionToTarget net s with ⟨dTr, res⟩
    rw [hdel] at hres
    have hres' : res = none := hres
    subst hres'
    simp [handleMessage, handleActive, textMsg, htr, hs, hstatus, hdel]
  · intro e hres
    rcases hdel : sendSubmissionToTarget net s with ⟨dTr, res⟩
    rw [hdel] at hres
    have hres' : res = some e := hres
    subst hres'
    simp [handleMessage, handleActive, textMsg, htr, hs, hstatus, hdel]

theorem c5_witness :
    getActiveSubmission (dbWith c5sample) 7 = some c5sample ∧
      c5sample.status = "confirming" ∧
      (((sendSubmissionToTarget netOk c5sample).2 = none →
          handleMessage netOk (dbWith c5sample) (textMsg 7 7 1 "✅ Отправить") =
            ⟨updateSubmission (dbWith c5sample)
                { c5sample with status := "sent", last_error := none },
             (sendSubmissionToTarget netOk c5sample).1 ++
               [.mutate { c5sample with status := "sent", last_error := none },
                .persist { c5sample with status := "sent", last_error := none },
                .send (.message (.user 7) "Фото доставлены, спасибо!" (some .START))],
             none⟩) ∧
        (∀ e, (sendSubmissionToTarget netOk c5sample).2 = some e →
          handleMessage netOk (dbWith c5sample) (textMsg 7 7 1 "✅ Отправить") =
            ⟨updateSubmission (dbWith c5sample)
                { c5sample with
                    status := "failed", attempts := c5sample.attempts + 1,
                    last_error := some e },
             (sendSubmissionToTarget netOk c5sample).1 ++
               [.mutate
                  { c5sample with
                      status := "failed", attempts := c5sample.attempts + 1,
                      last_error := some e },
                .persist
                  { c5sample with
                      status := "failed", attempts := c5sample.attempts + 1,
                      last_error := some e },
                .send (.message (.user 7)
                  "Не удалось доставить фото в группу. Нажмите «Повторить отправку» или «Отмена»."
                  (some .RETRY_ACTIONS))],
             none⟩)) :=
  ⟨by decide, by decide,
    c5_delivery_outcome_recording netOk (dbWith c5sample) 7 7 1 c5sample
      (by decide) (by decide)⟩

/-! ## Whole-handler traversal lemmas -/

theorem runDelivery_sends (net : Net) :
    ∀ (cs : List Outbound) (i : Nat) (a : Action), a ∈ (runDelivery net i cs).1 →
      a.isSend = true := by
  intro cs
  induction cs with
  | nil => intro i a ha; simp [runDelivery] at ha
  | cons c cs ih =>
    intro i a ha
    simp only [runDelivery] at ha
    cases hnet : net i with
    | some e => rw [hnet] at ha; simp at ha
    | none =>
      rw [hnet] at ha
      simp only [List.mem_cons] at ha
      rcases ha with rfl | ha
      · rfl
      · exact ih (i + 1) a ha

theorem cleanFrom_sends_append (tr tl : List Action) (h : ∀ a ∈ tr, a.isSend = true) :
    cleanFrom false (tr ++ tl) = cleanFrom false tl := by
  induction tr with
  | nil => rfl
  | cons a tr ih =>
    cases a with
    | send o =>
      simp only [List.cons_append, cleanFrom, Bool.not_false, Bool.true_and]
      exact ih (fun x hx => h x (by simp [hx]))
    | mutate s =>
      exact absurd (h (Action.mutate s) (by simp)) (by simp [Action.isSend])
    | persist s =>
      exact absurd (h (Action.persist s) (by simp)) (by simp [Action.isSend])
    | create s =>
      exact absurd (h (Action.create s) (by simp)) (by simp [Action.isSend])
    | rpcAppend i f k c ad =>
      exact absurd (h (Action.rpcAppend i f k c ad) (by simp)) (by simp [Action.isSend])

theorem cleanFrom_delivery_append (net : Net) (s : Submission) (tl : List Action) :
    cleanFrom false ((sendSubmissionToTarget net s).1 ++ tl) = cleanFrom false tl :=
  cleanFrom_sends_append _ _ (fun a ha => runDelivery_sends net _ 0 a ha)

theorem cleanFrom_photo_append (db : Db) (s : Submission) (m : TgMessage) (tl : List Action) :
    cleanFrom false ((handleIncomingPhoto db s m).trace ++ tl) = cleanFrom false tl := by
  unfold handleIncomingPhoto
  split
  · rfl
  · split
    · rfl
    · dsimp only
      split
      · rfl
      · rfl

theorem cleanFrom_photo (db : Db) (s : Submission) (m : TgMessage) :
    cleanFrom false (handleIncomingPhoto db s m).trace = true := by
  have h := cleanFrom_photo_append db s m []
  simpa using h

theorem appendSubmissionPhotoDb_tg (db : Db) (i : Nat) (f u : String)
    (db1 : Db) (cnt : Nat) (add : Bool)
    (h : appendSubmissionPhotoDb db i f u = some (db1, cnt, add)) :
    db1.tg_updates = db.tg_updates := by
  unfold appendSubmissionPhotoDb at h
  cases hf : db.submissions.find? (fun s => s.id == i) with
  | none => rw [hf] at h; simp at h
  | some s0 =>
    rw [hf] at h
    simp only [Option.some.injEq, Prod.mk.injEq] at h
    obtain ⟨hdb, -, -⟩ := h
    rw [← hdb]

theorem handleIncomingPhoto_tg (db : Db) (s : Submission) (m : TgMessage) :
    (handleIncomingPhoto db s m).db.tg_updates = db.tg_updates := by
  unfold handleIncomingPhoto
  split
  · rfl
  · split
    · rfl
    · dsimp only
      split
      · rfl
      · exact appendSubmissionPhotoDb_tg _ _ _ _ _ _ _ (by assumption)

theorem stepAchievementText_tg (db : Db) (userId : Int) (submission : Submission)
    (text : Option String) :
    (stepAchievementText db userId submission text).db.tg_updates = db.tg_updates := by
  unfold stepAchievementText
  repeat' split
  all_goals rfl

theorem stepDate_tg (db : Db) (userId : Int) (submission : Submission)
    (text : Option String) :
    (stepDate db userId submission text).db.tg_updates = db.tg_updates := by
  unfold stepDate
  repeat' split
  all_goals rfl

theorem stepType_tg (db : Db) (userId : Int) (submission : Submission)
    (text : Option String) :
    (stepType db userId submission text).db.tg_updates = db.tg_updates := by
  unfold stepType
  repeat' split
  all_goals rfl

theorem stepCustomType_tg (db : Db) (userId : Int) (submission : Submission)
    (text : Option String) :
    (stepCustomType db userId submission text).db.tg_updates = db.tg_updates := by
  unfold stepCustomType
  repeat' split
  all_goals rfl

theorem stepSport_tg (db : Db) (userId : Int) (submission : Submission)
    (text : Option String) :
    (stepSport db userId submission text).db.tg_updates = db.tg_updates := by
  unfold stepSport
  repeat' split
  all_goals rfl

theorem stepGender_tg (db : Db) (userId : Int) (submission : Submission)
    (text : Option String) :
    (stepGender db userId submission text).db.tg_updates = db.tg_updates := by
  unfold stepGender
  repeat' split
  all_goals rfl

theorem stepStage_tg (db : Db) (userId : Int) (submission : Submission)
    (text : Option String) :
    (stepStage db userId submission text).db.tg_updates = db.tg_updates := by
  unfold stepStage
  repeat' split
  all_goals rfl

theorem stepPhase_tg (db : Db) (userId : Int) (submission : Submission)
    (text : Option String) :
    (stepPhase db userId submission text).db.tg_updates = db.tg_updates := by
  unfold stepPhase
  repeat' split
  all_goals rfl

theorem stepPhotos_tg (db : Db) (userId : Int) (submission : Submission)
    (msg : TgMessage) (text : Option String) :
    (stepPhotos db userId submission msg text).db.tg_updates = db.tg_updates := by
  unfold stepPhotos
  dsimp only
  repeat' split
  all_goals first
    | rfl
    | exact handleIncomingPhoto_tg _ _ _

theorem stepFallback_tg (db : Db) (userId : Int) (submission : Submission)
    (msg : TgMessage) (text : Option String) :
    (stepFallback db userId submission msg text).db.tg_updates = db.tg_updates := by
  unfold stepFallback
  dsimp only
  repeat' split
  all_goals first
    | rfl
    | exact handleIncomingPhoto_tg _ _ _

theorem handleCollecting_tg (db : Db) (userId : Int)
    (submission : Submission) (msg : TgMessage) (text : Option String) :
    (handleCollecting db userId submission msg text).db.tg_updates = db.tg_updates := by
  unfold handleCollecting
  dsimp only
  repeat' split
  all_goals first
    | exact stepAchievementText_tg _ _ _ _
    | exact stepDate_tg _ _ _ _
    | exact stepType_tg _ _ _ _
    | exact stepCustomType_tg _ _ _ _
    | exact stepSport_tg _ _ _ _
    | exact stepGender_tg _ _ _ _
    | exact stepStage_tg _ _ _ _
    | exact stepPhase_tg _ _ _ _
    | exact stepPhotos_tg _ _ _ _ _
    | exact stepFallback_tg _ _ _ _ _

theorem handleActive_tg (net : Net) (db : Db) (userId : Int)
    (submission : Submission) (msg : TgMessage) (text : Option String) :
    (handleActive net db userId submission msg text).db.tg_updates = db.tg_updates := by
  unfold handleActive
  dsimp only
  repeat' split
  all_goals first
    | rfl
    | exact handleIncomingPhoto_tg _ _ _
    | exact handleCollecting_tg _ _ _ _ _

/-- `handleMessage` never touches the `tg_updates` dedup ledger. -/
theorem handleMessage_tg_updates (net : Net) (db : Db) (msg : TgMessage) :
    (handleMessage net db msg).db.tg_updates = db.tg_updates := by
  unfold handleMessage
  dsimp only
  repeat' split
  all_goals first
    | rfl
    | exact handleActive_tg _ _ _ _ _ _

/-! ## Claim C8: persistence versus outbound ordering -/

/-- C8 as stated is false on the code: the failed-status "retry send"
branch with an empty photo list is a state-changing branch (it persists
`status := "collecting"`), yet its re-prompt is sent *before* the store
write — so the submission is not persisted before every outbound message
of that branch. -/
theorem c8_counterexample :
    persistedBeforeSends
        (handleMessage netOk (dbWith { subBase with status := "failed" })
          (textMsg 7 7 1 "Повторить отправку")).trace = false ∧
      (handleMessage netOk (dbWith { subBase with status := "failed" })
          (textMsg 7 7 1 "Повторить отправку")).trace =
        [.send (.message (.user 7)
           "Не вижу фото для отправки. Пришлите фото и нажмите «Готово ✅»."
           (some .PHOTO_ACTIONS)),
         .mutate { subBase with status := "collecting" },
         .persist { subBase with status := "collecting" }] := by
  decide

theorem stepAchievementText_clean (db : Db) (userId : Int) (submission : Submission)
    (text : Option String) :
    noDirtySend (stepAchievementText db userId submission text).trace = true := by
  unfold stepAchievementText
  repeat' split
  all_goals rfl

theorem stepDate_clean (db : Db) (userId : Int) (submission : Submission)
    (text : Option String) :
    noDirtySend (stepDate db userId submission text).trace = true := by
  unfold stepDate
  repeat' split
  all_goals rfl

theorem stepType_clean (db : Db) (userId : Int) (submission : Submission)
    (text : Option String) :
    noDirtySend (stepType db userId submission text).trace = true := by
  unfold stepType
  repeat' split
  all_goals rfl

theorem stepCustomType_clean (db : Db) (userId : Int) (submission : Submission)
    (text : Option String) :
    noDirtySend (stepCustomType db userId submission text).trace = true := by
  unfold stepCustomType
  repeat' split
  all_goals rfl

theorem stepSport_clean (db : Db) (userId : Int) (submission : Submission)
    (text : Option String) :
    noDirtySend (stepSport db userId submission text).trace = true := by
  unfold stepSport
  repeat' split
  all_goals rfl

theorem stepGender_clean (db : Db) (userId : Int) (submission : Submission)
    (text : Option String) :
    noDirtySend (stepGender db userId submission text).trace = true := by
  unfold stepGender
  repeat' split
  all_goals rfl

theorem stepStage_clean (db : Db) (userId : Int) (submission : Submission)
    (text : Option String) :
    noDirtySend (stepStage db userId submission text).trace = true := by
  unfold stepStage
  repeat' split
  all_goals rfl

theorem stepPhase_clean (db : Db) (userId : Int) (submission : Submission)
    (text : Option String) :
    noDirtySend (stepPhase db userId submission text).trace = true := by
  unfold stepPhase
  repeat' split
  all_goals rfl

theorem stepPhotos_clean (db : Db) (userId : Int) (submission : Submission)
    (msg : TgMessage) (text : Option String) :
    noDirtySend (stepPhotos db userId submission msg text).trace = true := by
  unfold stepPhotos
  dsimp only
  repeat' split
  all_goals first
    | rfl
    | exact cleanFrom_photo _ _ _

theorem stepFallback_clean (db : Db) (userId : Int) (submission : Submission)
    (msg : TgMessage) (text : Option String) :
    noDirtySend (stepFallback db userId submission msg text).trace = true := by
  unfold stepFallback
  dsimp only
  repeat' split
  all_goals first
    | rfl
    | exact cleanFrom_photo _ _ _

theorem handleCollecting_clean (db : Db) (userId : Int)
    (submission : Submission) (msg : TgMessage) (text : Option String) :
    noDirtySend (handleCollecting db userId submission msg text).trace = true := by
  unfold handleCollecting
  dsimp only
  repeat' split
  all_goals first
    | exact stepAchievementText_clean _ _ _ _
    | exact stepDate_clean _ _ _ _
    | exact stepType_clean _ _ _ _
    | exact stepCustomType_clean _ _ _ _
    | exact stepSport_clean _ _ _ _
    | exact stepGender_clean _ _ _ _
    | exact stepStage_clean _ _ _ _
    | exact stepPhase_clean _ _ _ _
    | exact stepPhotos_clean _ _ _ _ _
    | exact stepFallback_clean _ _ _ _ _

theorem handleActive_clean (net : Net) (db : Db) (userId : Int)
    (submission : Submission) (msg : TgMessage) (text : Option String) :
    noDirtySend (handleActive net db userId submission msg text).trace = true := by
  unfold handleActive
  dsimp only
  repeat' split
  all_goals first
    | rfl
    | (rw [noDirtySend, cleanFrom_delivery_append]; rfl)
    | exact cleanFrom_photo _ _ _
    | (rw [noDirtySend, cleanFrom_photo_append]; rfl)
    | exact handleCollecting_clean _ _ _ _ _

/-- C8 amended: what holds on every branch of the dialogue handler is the
parenthetical reading of the claim — no outbound message is ever sent
while the in-memory submission carries an unpersisted mutation (every
mutation is persisted before any later send of the invocation); the
stronger literal ordering "persist before *any* outbound of a
state-changing branch" fails for the retry-with-no-photos re-prompt
(which precedes its status write) and for the delivery calls themselves
(which precede the outcome write). -/
theorem c8_no_dirty_send (net : Net) (db : Db) (msg : TgMessage) :
    noDirtySend (handleMessage net db msg).trace = true := by
  unfold handleMessage
  dsimp only
  repeat' split
  all_goals first
    | rfl
    | exact handleActive_clean _ _ _ _ _ _

/-! ## Claim C2: duplicate update short-circuit -/

/-- C2: processing any update acknowledges the transport with success,
and a second delivery of the same update identifier finds it in the dedup
ledger, performs no state mutation at all (the store after the second
delivery equals the store after the first), emits no outbound traffic,
and is again acknowledged with success. -/
theorem c2_duplicate_update_short_circuit (net : Net) (db : Db) (u : TgUpdate) :
    (processUpdate net db u).2.2 = .ok ∧
      (processUpdate net (processUpdate net db u).1 u).1 = (processUpdate net db u).1 ∧
      (processUpdate net (processUpdate net db u).1 u).2.1 = [] ∧
      (processUpdate net (processUpdate net db u).1 u).2.2 = .ok := by
  have hmem : u.update_id ∈ (processUpdate net db u).1.tg_updates := by
    unfold processUpdate dedupeUpdate
    by_cases h : u.update_id ∈ db.tg_updates
    · simp [h]
    · have hc : db.tg_updates.contains u.update_id = false := by
        simp [List.elem_iff, h]
      simp only [hc, Bool.false_eq_true, if_false]
      cases hm : u.message with
      | none => simpa using List.mem_cons_self _ _
      | some m =>
        simp only [hm]
        cases herr : (handleMessage net { db with tg_updates := u.update_id :: db.tg_updates } m).err with
        | none =>
          simp only [herr]
          rw [handleMessage_tg_updates]
          simpa using List.mem_cons_self _ _
        | some e =>
          simp only [herr]
          rw [handleMessage_tg_updates]
          simpa using List.mem_cons_self _ _
  have hok : (processUpdate net db u).2.2 = .ok := by
    unfold processUpdate
    dsimp only
    split
    · rfl
    · cases hm : u.message with
      | none => simp [hm]
      | some m =>
        simp only [hm]
        cases herr : (handleMessage net (dedupeUpdate db u.update_id).1 m).err with
        | none => simp [herr]
        | some e => simp [herr]
  have hsecond : processUpdate net (processUpdate net db u).1 u =
      ((processUpdate net db u).1, [], .ok) := by
    generalize (processUpdate net db u).1 = db1 at hmem ⊢
    unfold processUpdate dedupeUpdate
    simp [hmem]
  refine ⟨hok, ?_, ?_, ?_⟩ <;> rw [hsecond]

/-! ## Claim C3: at most one active submission per user -/

theorem latestStep_ne_none (acc : Option Submission) (s : Submission) :
    latestStep acc s ≠ none := by
  cases acc with
  | none => simp [latestStep]
  | some t =>
    simp only [latestStep]
    split <;> simp

theorem latestStep_foldl :
    ∀ (l : List Submission) (acc : Option Submission) (m : Submission),
      List.foldl latestStep acc l = some m →
      (acc = some m ∨ m ∈ l) ∧ (∀ t ∈ l, t.created_at ≤ m.created_at) ∧
        (∀ a, acc = some a → a.created_at ≤ m.created_at) := by
  intro l
  induction l with
  | nil =>
    intro acc m h
    simp only [List.foldl_nil] at h
    exact ⟨Or.inl h, by simp, fun a ha => by rw [h] at ha; cases ha; exact Nat.le_refl _⟩
  | cons s l ih =>
    intro acc m h
    rw [List.foldl_cons] at h
    obtain ⟨h1, h2, h3⟩ := ih (latestStep acc s) m h
    have hstep : ∀ a, latestStep acc s = some a → a = s ∨ acc = some a := by
      intro a ha
      cases acc with
      | none =>
        simp only [latestStep] at ha
        exact Or.inl (Option.some.inj ha).symm
      | some t =>
        simp only [latestStep] at ha
        split at ha
        · exact Or.inl (Option.some.inj ha).symm
        · exact Or.inr (by rw [Option.some.inj ha])
    have hs_le : s.created_at ≤ m.created_at := by
      cases acc with
      | none => exact h3 s (by simp [latestStep])
      | some t =>
        by_cases hlt : t.created_at < s.created_at
        · exact h3 s (by simp [latestStep, hlt])
        · have := h3 t (by simp [latestStep, hlt])
          omega
    have hacc_le : ∀ a, acc = some a → a.created_at ≤ m.created_at := by
      intro a ha
      subst ha
      by_cases hlt : a.created_at < s.created_at
      · have := h3 s (by simp [latestStep, hlt])
        omega
      · exact h3 a (by simp [latestStep, hlt])
    refine ⟨?_, ?_, hacc_le⟩
    · rcases h1 with h1 | h1
      · rcases hstep m h1 with rfl | h1'
        · exact Or.inr (by simp)
        · exact Or.inl h1'
      · exact Or.inr (by simp [h1])
    · intro t ht
      rcases List.mem_cons.mp ht with rfl | ht
      · exact hs_le
      · exact h2 t ht

theorem latestSubmission_some (l : List Submission) (m : Submission)
    (h : latestSubmission l = some m) :
    m ∈ l ∧ ∀ t ∈ l, t.created_at ≤ m.created_at := by
  obtain ⟨h1, h2, _⟩ := latestStep_foldl l none m h
  rcases h1 with h1 | h1
  · cases h1
  · exact ⟨h1, h2⟩

theorem latestSubmission_none (l : List Submission)
    (h : latestSubmission l = none) : l = [] := by
  cases l with
  | nil => rfl
  | cons s l =>
    exfalso
    unfold latestSubmission at h
    rw [List.foldl_cons] at h
    have : ∀ (acc : Option Submission), acc ≠ none →
        ∀ (l' : List Submission), List.foldl latestStep acc l' ≠ none := by
      intro acc hacc l'
      induction l' generalizing acc with
      | nil => simpa using hacc
      | cons x xs ih =>
        rw [List.foldl_cons]
        exact ih _ (latestStep_ne_none _ _)
    exact this _ (latestStep_ne_none none s) l h

theorem getActive_some (db : Db) (u : Int) (m : Submission)
    (h : getActiveSubmission db u = some m) :
    m ∈ db.submissions ∧ m.user_id = u ∧ Eligible m ∧
      ∀ t ∈ db.submissions, t.user_id = u → Eligible t →
        t.created_at ≤ m.created_at := by
  unfold getActiveSubmission at h
  obtain ⟨hmem, hmax⟩ := latestSubmission_some _ _ h
  rw [List.mem_filter] at hmem
  obtain ⟨hm, hp⟩ := hmem
  simp only [Bool.and_eq_true, beq_iff_eq, List.elem_iff] at hp
  refine ⟨hm, hp.1, hp.2, ?_⟩
  intro t ht hu he
  refine hmax t ?_
  rw [List.mem_filter]
  simp only [Bool.and_eq_true, beq_iff_eq, List.elem_iff]
  exact ⟨ht, hu, he⟩

theorem getActive_none (db : Db) (u : Int)
    (h : getActiveSubmission db u = none) :
    ∀ t ∈ db.submissions, t.user_id = u → ¬ Eligible t := by
  intro t ht hu he
  unfold getActiveSubmission at h
  have hfe := latestSubmission_none _ h
  have : t ∈ db.submissions.filter fun s =>
      s.user_id == u && activeStatuses.contains s.status := by
    rw [List.mem_filter]
    simp only [Bool.and_eq_true, beq_iff_eq, List.elem_iff]
    exact ⟨ht, hu, he⟩
  rw [hfe] at this
  cases this

/-- Evaluation of the dialogue handler on the six control events: any
active submission is first failed with the branch's reason code (the
mutate/persist pair opens the trace), and the intake events then create a
fresh `collecting` submission. -/
theorem handleMessage_ctrl (net : Net) (db : Db) (u chat : Int) (e : CtrlEvent) :
    (handleMessage net db (ctrlMsg u chat e)).db =
      (match getActiveSubmission db u with
       | some m =>
         if e.isIntake then
           (createSubmission (updateSubmission db (failSub m e.reason)) u chat e.kind).1
         else updateSubmission db (failSub m e.reason)
       | none =>
         if e.isIntake then (createSubmission db u chat e.kind).1 else db) ∧
      (∀ m, getActiveSubmission db u = some m →
        ∃ rest, (handleMessage net db (ctrlMsg u chat e)).trace =
          .mutate (failSub m e.reason) :: .persist (failSub m e.reason) :: rest) := by
  have t1 : jsTrim "/start" = "/start" := by decide
  have t2 : jsTrim "/cancel" = "/cancel" := by decide
  have t3 : jsTrim "Отмена" = "Отмена" := by decide
  have t4 : jsTrim "❌ Отмена" = "❌ Отмена" := by decide
  have t5 : jsTrim "🏆 Соревнования ШСК" = "🏆 Соревнования ШСК" := by decide
  have t6 : jsTrim "🌟 Достижения детей" = "🌟 Достижения детей" := by decide
  cases e <;> cases hs : getActiveSubmission db u <;>
    simp [handleMessage, ctrlMsg, textMsg, CtrlEvent.text, CtrlEvent.reason,
      CtrlEvent.isIntake, CtrlEvent.kind, failSub, hs, t1, t2, t3, t4, t5, t6]

theorem WF_updateSubmission (db : Db) (s : Submission) (hwf : db.WF) :
    (updateSubmission db s).WF := by
  obtain ⟨h1, h2⟩ := hwf
  constructor
  · intro t ht
    simp only [updateSubmission, List.mem_map] at ht
    obtain ⟨t0, ht0, rfl⟩ := ht
    split
    · exact h1 t0 ht0
    · exact h1 t0 ht0
  · have : ((updateSubmission db s).submissions.map fun t => t.created_at) =
        db.submissions.map fun t => t.created_at := by
      simp only [updateSubmission, List.map_map]
      refine List.map_congr_left ?_
      intro t _
      simp only [Function.comp_apply]
      split <;> rfl
    rw [this]
    exact h2

theorem WF_createSubmission (db : Db) (u chat : Int) (k : String) (hwf : db.WF) :
    (createSubmission db u chat k).1.WF := by
  obtain ⟨h1, h2⟩ := hwf
  constructor
  · intro t ht
    simp only [createSubmission, newSubmission, List.mem_append, List.mem_singleton] at ht
    rcases ht with ht | rfl
    · have := h1 t ht
      simp only [createSubmission]
      omega
    · simp [createSubmission]
  · simp only [createSubmission, newSubmission, List.map_append, List.map_cons, List.map_nil]
    rw [List.nodup_append]
    refine ⟨h2, List.nodup_singleton _, ?_⟩
    intro a ha hb
    simp only [List.mem_map] at ha
    obtain ⟨t, ht, rfl⟩ := ha
    simp only [List.mem_singleton] at hb
    have hb2 : t.created_at = db.now := hb
    have := h1 t ht
    omega

theorem mem_updateSubmission (db : Db) (s : Submission) (t' : Submission)
    (h : t' ∈ (updateSubmission db s).submissions) :
    ∃ t ∈ db.submissions, t' = if t.id = s.id then applyUpdate t s else t := by
  simp only [updateSubmission, List.mem_map] at h
  obtain ⟨t, ht, rfl⟩ := h
  exact ⟨t, ht, rfl⟩

theorem applyUpdate_failSub_status (t m : Submission) (r : String) :
    (applyUpdate t (failSub m r)).status = "failed" := rfl

/-- After the cancel/restart write, the user has no non-terminal
submission left. -/
theorem no_active_after_fail (db : Db) (u : Int) (m : Submission) (r : String)
    (hinv : UserInv db u) (hs : getActiveSubmission db u = some m) :
    ∀ s' ∈ (updateSubmission db (failSub m r)).submissions,
      s'.user_id = u → ¬ NonTerminal s' := by
  obtain ⟨hclosed, hnewest⟩ := hinv
  obtain ⟨hm, hmu, hme, hmax⟩ := getActive_some db u m hs
  intro s' hs' hu hnt
  obtain ⟨t, ht, heq⟩ := mem_updateSubmission db (failSub m r) s' hs'
  by_cases hid : t.id = (failSub m r).id
  · rw [heq, if_pos hid] at hnt
    simp [NonTerminal, applyUpdate_failSub_status] at hnt
  · rw [heq, if_neg hid] at hnt hu
    -- t is a non-terminal submission of u in the old store
    have hte : Eligible t := by
      rcases hclosed t ht hu with h | h | h | h
      · simp [Eligible, activeStatuses, h]
      · simp [Eligible, activeStatuses, h]
      · simp [NonTerminal, h] at hnt
      · simp [NonTerminal, h] at hnt
    by_cases hmt : m = t
    · exact hid (by rw [hmt]; rfl)
    · have h1 := hnewest t ht hu hnt m hm hmu hme hmt
      have h2 := hmax t ht hu hte
      omega

theorem statusClosed_after_fail (db : Db) (u : Int) (m : Submission) (r : String)
    (hclosed : StatusClosed db u) :
    StatusClosed (updateSubmission db (failSub m r)) u := by
  intro s' hs' hu
  obtain ⟨t, ht, heq⟩ := mem_updateSubmission db (failSub m r) s' hs'
  by_cases hid : t.id = (failSub m r).id
  · rw [heq, if_pos hid]
    exact Or.inr (Or.inr (Or.inl (applyUpdate_failSub_status t m r)))
  · rw [heq, if_neg hid]
    rw [heq, if_neg hid] at hu
    exact hclosed t ht hu

/-- Creating a fresh submission in a store where the user has no
non-terminal submission restores both invariants. -/
theorem userInv_after_create (db : Db) (u chat : Int) (k : String)
    (hwf : db.WF)
    (hclosed : StatusClosed db u)
    (hnone : ∀ s ∈ db.submissions, s.user_id = u → ¬ NonTerminal s) :
    UserInv (createSubmission db u chat k).1 u := by
  constructor
  · intro s' hs' hu
    simp only [createSubmission, newSubmission, List.mem_append,
      List.mem_singleton] at hs'
    rcases hs' with hs' | rfl
    · exact hclosed s' hs' hu
    · exact Or.inl rfl
  · intro s' hs' hu hnt t ht htu hte htne
    simp only [createSubmission, newSubmission, List.mem_append,
      List.mem_singleton] at hs' ht
    rcases hs' with hs' | rfl
    · exact absurd hnt (hnone s' hs' hu)
    · rcases ht with ht | rfl
      · exact hwf.1 t ht
      · exact absurd rfl htne

theorem userInv_after_fail (db : Db) (u : Int) (m : Submission) (r : String)
    (hinv : UserInv db u) (hs : getActiveSubmission db u = some m) :
    UserInv (updateSubmission db (failSub m r)) u := by
  refine ⟨statusClosed_after_fail db u m r hinv.1, ?_⟩
  intro s' hs' hu hnt
  exact absurd hnt (no_active_after_fail db u m r hinv hs s' hs' hu)

theorem userInv_none_active (db : Db) (u : Int)
    (hinv : UserInv db u) (hs : getActiveSubmission db u = none) :
    ∀ s ∈ db.submissions, s.user_id = u → ¬ NonTerminal s := by
  intro s hsm hu hnt
  have hse : Eligible s := by
    rcases hinv.1 s hsm hu with h | h | h | h
    · simp [Eligible, activeStatuses, h]
    · simp [Eligible, activeStatuses, h]
    · simp [NonTerminal, h] at hnt
    · simp [NonTerminal, h] at hnt
  exact getActive_none db u hs s hsm hu hse

/-- One control event preserves well-formedness and the invariant. -/
theorem ctrl_step_inv (net : Net) (db : Db) (u chat : Int) (e : CtrlEvent)
    (hwf : db.WF) (hinv : UserInv db u) :
    (handleMessage net db (ctrlMsg u chat e)).db.WF ∧
      UserInv (handleMessage net db (ctrlMsg u chat e)).db u := by
  obtain ⟨hdb, -⟩ := handleMessage_ctrl net db u chat e
  rw [hdb]
  cases hs : getActiveSubmission db u with
  | some m =>
    by_cases hi : e.isIntake
    · simp only [hi, if_true]
      have hwf1 := WF_updateSubmission db (failSub m e.reason) hwf
      refine ⟨WF_createSubmission _ u chat e.kind hwf1, ?_⟩
      exact userInv_after_create _ u chat e.kind hwf1
        (statusClosed_after_fail db u m e.reason hinv.1)
        (no_active_after_fail db u m e.reason hinv hs)
    · simp only [hi, if_false]
      exact ⟨WF_updateSubmission db (failSub m e.reason) hwf,
        userInv_after_fail db u m e.reason hinv hs⟩
  | none =>
    by_cases hi : e.isIntake
    · simp only [hi, if_true]
      refine ⟨WF_createSubmission db u chat e.kind hwf, ?_⟩
      exact userInv_after_create db u chat e.kind hwf hinv.1
        (userInv_none_active db u hinv hs)
    · simp only [hi, if_false]
      exact ⟨hwf, hinv⟩

theorem runCtrl_inv (net : Net) (u chat : Int) :
    ∀ (es : List CtrlEvent) (db : Db), db.WF → UserInv db u →
      (runCtrl net u chat db es).WF ∧ UserInv (runCtrl net u chat db es) u := by
  intro es
  induction es with
  | nil => intro db hwf hinv; exact ⟨hwf, hinv⟩
  | cons e es ih =>
    intro db hwf hinv
    obtain ⟨hwf1, hinv1⟩ := ctrl_step_inv net db u chat e hwf hinv
    exact ih _ hwf1 hinv1

theorem userInv_atMostOne (db : Db) (u : Int) (hinv : UserInv db u) :
    AtMostOneActive db u := by
  intro s hsm hsu hsnt t htm htu htnt
  by_cases hst : s = t
  · exact hst
  · exfalso
    have hse : Eligible s := by
      rcases hinv.1 s hsm hsu with h | h | h | h
      · simp [Eligible, activeStatuses, h]
      · simp [Eligible, activeStatuses, h]
      · simp [NonTerminal, h] at hsnt
      · simp [NonTerminal, h] at hsnt
    have hte : Eligible t := by
      rcases hinv.1 t htm htu with h | h | h | h
      · simp [Eligible, activeStatuses, h]
      · simp [Eligible, activeStatuses, h]
      · simp [NonTerminal, h] at htnt
      · simp [NonTerminal, h] at htnt
    have h1 := hinv.2 s hsm hsu hsnt t htm htu hte (fun h => hst h.symm)
    have h2 := hinv.2 t htm htu htnt s hsm hsu hse hst
    omega

/-- C3: starting from any well-formed store satisfying the invariant
(e.g. a store with no submissions of the user), after any sequence of
start-new-intake and cancel events from one user at most one of that
user's submissions is in a non-terminal status; moreover each such event
first moves the loaded active submission to the terminal `failed` status
with reason `cancelled_by_user` or `restart_by_user` — the mutate/persist
pair of that write opens the branch's trace, before any submission is
created. -/
theorem c3_at_most_one_active (net : Net) (db : Db) (u chat : Int)
    (hwf : db.WF) (hinv : UserInv db u) :
    (∀ es : List CtrlEvent, AtMostOneActive (runCtrl net u chat db es) u) ∧
      (∀ e : CtrlEvent, ∀ m, getActiveSubmission db u = some m →
        (failSub m e.reason).status = "failed" ∧
          ((failSub m e.reason).last_error = some "cancelled_by_user" ∨
            (failSub m e.reason).last_error = some "restart_by_user") ∧
          ∃ rest, (handleMessage net db (ctrlMsg u chat e)).trace =
            .mutate (failSub m e.reason) :: .persist (failSub m e.reason) :: rest) := by
  constructor
  · intro es
    exact userInv_atMostOne _ u (runCtrl_inv net u chat es db hwf hinv).2
  · intro e m hs
    refine ⟨rfl, ?_, (handleMessage_ctrl net db u chat e).2 m hs⟩
    cases e <;> simp [failSub, CtrlEvent.reason]

theorem c3_witness :
    (dbWith subBase).WF ∧ UserInv (dbWith subBase) 7 ∧
      ((∀ es : List CtrlEvent,
          AtMostOneActive (runCtrl netOk 7 7 (dbWith subBase) es) 7) ∧
        (∀ e : CtrlEvent, ∀ m, getActiveSubmission (dbWith subBase) 7 = some m →
          (failSub m e.reason).status = "failed" ∧
            ((failSub m e.reason).last_error = some "cancelled_by_user" ∨
              (failSub m e.reason).last_error = some "restart_by_user") ∧
            ∃ rest, (handleMessage netOk (dbWith subBase) (ctrlMsg 7 7 e)).trace =
              .mutate (failSub m e.reason) :: .persist (failSub m e.reason) :: rest)) :=
  ⟨by decide, by decide,
    c3_at_most_one_active netOk (dbWith subBase) 7 7 (by decide) (by decide)⟩

end FeedbackBot
